import Mathlib

/-!
Verification of the sqlite-vec vector store and path utilities of the
code-context repository.

The development shallowly embeds the relevant parts of
`packages/core/src/vectordb/sqlite-vec-vectordb.ts` and
`packages/core/src/utils/vector-paths.ts`:

* a per-codebase database is a pair of optional tables (the `documents`
  vec0 table and the `documents_fts` FTS5 table); SQL statements built by
  the store are modelled by the corresponding list transformations;
* the `vec_distance_cosine` function of the sqlite-vec extension and the
  FTS5 `MATCH ... ORDER BY rank` engine are external to the repository and
  are taken as parameters (`dist`, `ftsQuery`);
* JavaScript `Array.prototype.sort` (stable since ES2019) and SQL
  `ORDER BY` are modelled by the stable insertion sort of Mathlib;
* Node's `crypto` MD5 is embedded directly (RFC 1321 over byte lists);
  `path.resolve` is a parameter.

Machine floats of the RRF computation are modelled by exact rationals.
-/

namespace CodeContext

/-- A dynamically typed JavaScript value, as far as the store's rows need:
the stored line-number columns are TEXT, so a returned field is either the
number the caller supplied or its string form. -/
inductive JsVal where
  | num : Int → JsVal
  | str : String → JsVal
deriving DecidableEq, Repr

/-- Input document of `insert` (types as declared in `VectorDocument`). -/
structure VectorDocument where
  id : String
  vector : List ℚ
  content : String
  relativePath : String
  startLine : Int
  endLine : Int
  fileExtension : String
  metadata : String
deriving DecidableEq, Repr

/-- A row of the `documents` vec0 table.  `startLine`/`endLine` are TEXT
columns (see the comment in `createCollection`). -/
structure Row where
  id : String
  vector : List ℚ
  content : String
  relativePath : String
  startLine : String
  endLine : String
  fileExtension : String
  metadata : String
deriving DecidableEq, Repr

/-- A row of the `documents_fts` FTS5 table. -/
structure FtsRow where
  id : String
  content : String
  relativePath : String
  fileExtension : String
deriving DecidableEq, Repr

/-- The dense vec0 table: declared vector dimension plus rows. -/
structure Table where
  dim : Nat
  rows : List Row
deriving DecidableEq, Repr

/-- State of one collection's SQLite file: either table may be absent. -/
structure DbState where
  documents : Option Table
  fts : Option (List FtsRow)
deriving DecidableEq, Repr

/-- Document shape returned by `search`/`hybridSearch` (line numbers come
back as whatever the TEXT column holds). -/
structure RetDoc where
  id : String
  vector : List ℚ
  content : String
  relativePath : String
  startLine : JsVal
  endLine : JsVal
  fileExtension : String
  metadata : String
deriving DecidableEq, Repr

/-- One search hit: document plus score. -/
structure SearchResult where
  document : RetDoc
  score : ℚ
deriving DecidableEq, Repr

end CodeContext

namespace Md5

/-- 2^32 - 1, the 32-bit mask. -/
def mask32 : Nat := 4294967295

/-- 32-bit left rotation (arguments already below 2^32). -/
def rotl32 (x n : Nat) : Nat := ((x <<< n) ||| (x >>> (32 - n))) &&& mask32

/-- RFC 1321 sine-derived round constants. -/
def md5K : List Nat := [
  3614090360, 3905402710, 606105819, 3250441966, 4118548399, 1200080426, 2821735955, 4249261313,
  1770035416, 2336552879, 4294925233, 2304563134, 1804603682, 4254626195, 2792965006, 1236535329,
  4129170786, 3225465664, 643717713, 3921069994, 3593408605, 38016083, 3634488961, 3889429448,
  568446438, 3275163606, 4107603335, 1163531501, 2850285829, 4243563512, 1735328473, 2368359562,
  4294588738, 2272392833, 1839030562, 4259657740, 2763975236, 1272893353, 4139469664, 3200236656,
  681279174, 3936430074, 3572445317, 76029189, 3654602809, 3873151461, 530742520, 3299628645,
  4096336452, 1126891415, 2878612391, 4237533241, 1700485571, 2399980690, 4293915773, 2240044497,
  1873313359, 4264355552, 2734768916, 1309151649, 4149444226, 3174756917, 718787259, 3951481745]

/-- RFC 1321 per-round shift amounts. -/
def md5S : List Nat := [
  7, 12, 17, 22, 7, 12, 17, 22, 7, 12, 17, 22, 7, 12, 17, 22,
  5, 9, 14, 20, 5, 9, 14, 20, 5, 9, 14, 20, 5, 9, 14, 20,
  4, 11, 16, 23, 4, 11, 16, 23, 4, 11, 16, 23, 4, 11, 16, 23,
  6, 10, 15, 21, 6, 10, 15, 21, 6, 10, 15, 21, 6, 10, 15, 21]

/-- The four MD5 round mixing functions, selected by step index. -/
def md5F (i b c d : Nat) : Nat :=
  if i < 16 then (b &&& c) ||| ((mask32 ^^^ b) &&& d)
  else if i < 32 then (d &&& b) ||| ((mask32 ^^^ d) &&& c)
  else if i < 48 then (b ^^^ c) ^^^ d
  else c ^^^ (b ||| (mask32 ^^^ d))

/-- Message-word index schedule. -/
def md5G (i : Nat) : Nat :=
  if i < 16 then i
  else if i < 32 then (5 * i + 1) % 16
  else if i < 48 then (3 * i + 5) % 16
  else (7 * i) % 16

/-- Little-endian 32-bit word `j` of a 64-byte block. -/
def md5Word (block : List Nat) (j : Nat) : Nat :=
  block.getD (4 * j) 0 + 256 * block.getD (4 * j + 1) 0 +
    65536 * block.getD (4 * j + 2) 0 + 16777216 * block.getD (4 * j + 3) 0

/-- One of the 64 MD5 steps acting on the running state `(A, B, C, D)`. -/
def md5Step (block : List Nat) (st : Nat × Nat × Nat × Nat) (i : Nat) :
    Nat × Nat × Nat × Nat :=
  let f := (md5F i st.2.1 st.2.2.1 st.2.2.2 + st.1 + md5K.getD i 0 +
    md5Word block (md5G i)) &&& mask32
  (st.2.2.2, (st.2.1 + rotl32 f (md5S.getD i 0)) &&& mask32, st.2.1, st.2.2.1)

/-- Digest one 64-byte block. -/
def md5Block (st : Nat × Nat × Nat × Nat) (block : List Nat) :
    Nat × Nat × Nat × Nat :=
  let r := (List.range 64).foldl (md5Step block) st
  ((st.1 + r.1) &&& mask32, (st.2.1 + r.2.1) &&& mask32,
    (st.2.2.1 + r.2.2.1) &&& mask32, (st.2.2.2 + r.2.2.2) &&& mask32)

/-- RFC 1321 padding: a `0x80` byte, zeros to 56 mod 64, then the bit
length in 64-bit little-endian form. -/
def md5Pad (msg : List Nat) : List Nat :=
  msg ++ 128 :: List.replicate ((119 - msg.length % 64) % 64) 0 ++
    (List.range 8).map (fun i => (8 * msg.length >>> (8 * i)) % 256)

/-- Split a byte list into 64-byte chunks (fuel-structural so that the
kernel can evaluate it; `l.length` steps always suffice since each step
consumes at least one byte). -/
def chunksAux (fuel : Nat) (l : List Nat) : List (List Nat) :=
  match fuel, l with
  | 0, _ => []
  | _, [] => []
  | fuel + 1, x :: rest => ((x :: rest).take 64) :: chunksAux fuel ((x :: rest).drop 64)

/-- Split a byte list into 64-byte chunks. -/
def chunks64 (l : List Nat) : List (List Nat) := chunksAux l.length l

/-- MD5 initial state. -/
def md5Init : Nat × Nat × Nat × Nat := (1732584193, 4023233417, 2562383102, 271733878)

/-- Little-endian bytes of a 32-bit word. -/
def wordBytes (w : Nat) : List Nat :=
  [w % 256, (w >>> 8) % 256, (w >>> 16) % 256, (w >>> 24) % 256]

/-- The 16-byte MD5 digest of a byte string. -/
def md5Bytes (msg : List Nat) : List Nat :=
  let r := (chunks64 (md5Pad msg)).foldl md5Block md5Init
  wordBytes r.1 ++ wordBytes r.2.1 ++ wordBytes r.2.2.1 ++ wordBytes r.2.2.2

/-- The lowercase hexadecimal alphabet. -/
def hexDigits : List Char := "0123456789abcdef".data

/-- Lowercase hex digit of a nibble. -/
def hexChar (n : Nat) : Char := hexDigits.getD n '0'

/-- Lowercase hex encoding of a byte list, as characters. -/
def bytesToHexChars (bs : List Nat) : List Char :=
  bs.foldr (fun b acc => hexChar (b / 16) :: hexChar (b % 16) :: acc) []

/-- UTF-8 encoding of one character. -/
def utf8Char (c : Char) : List Nat :=
  let n := c.toNat
  if n < 128 then [n]
  else if n < 2048 then [192 + n / 64, 128 + n % 64]
  else if n < 65536 then [224 + n / 4096, 128 + (n / 64) % 64, 128 + n % 64]
  else [240 + n / 262144, 128 + (n / 4096) % 64, 128 + (n / 64) % 64, 128 + n % 64]

/-- UTF-8 bytes of a string (what `crypto.createHash('md5').update(s)` hashes). -/
def utf8Bytes (s : String) : List Nat :=
  s.data.foldr (fun c acc => utf8Char c ++ acc) []

/-- Lowercase hex characters of the MD5 digest. -/
def md5HexChars (msg : List Nat) : List Char := bytesToHexChars (md5Bytes msg)

/-- Lowercase hex MD5 digest as a string. -/
def md5HexString (msg : List Nat) : String := String.mk (md5HexChars msg)

end Md5

namespace VectorPaths

/-- `getPathHash` of `vector-paths.ts`: the first 8 characters of the
lowercase hex MD5 digest of `path.resolve(codebasePath)`.  `path.resolve`
is Node library code, taken as the parameter `resolve`. -/
def getPathHash (resolve : String → String) (codebasePath : String) : String :=
  String.mk ((Md5.md5HexChars (Md5.utf8Bytes (resolve codebasePath))).take 8)

/-- The default vectors directory `<home>/.code-context/vectors`
(`path.join(os.homedir(), '.code-context', 'vectors')`). -/
def defaultVectorsDir (home : String) : String := home ++ "/.code-context/vectors"

/-- `VECTOR_DB_DIR` of `vector-paths.ts`: a module constant computed from
the home directory only.  The environment variable parameter is listed to
record that the registry never consults it; `getVectorDbPath`,
`listAllVectorDbs`, `cleanupOrphanedDatabases` and `deleteVectorDb` all
resolve their on-disk directory through this constant. -/
def registryVectorDbDir (_envVectorDbPath : Option String) (home : String) : String :=
  defaultVectorsDir home

/-- `getVectorDbPath` of `vector-paths.ts`: database file inside the
registry directory, named by the 8-hex path hash. -/
def getVectorDbPath (envVectorDbPath : Option String) (home : String)
    (resolve : String → String) (codebasePath : String) : String :=
  registryVectorDbDir envVectorDbPath home ++ "/" ++ getPathHash resolve codebasePath ++ ".db"

/-- `getVectorDbDir` of `sqlite-vec-vectordb.ts`:
`process.env.VECTOR_DB_PATH || path.join(os.homedir(), '.code-context', 'vectors')`.
An unset variable is `none`; the empty string is falsy in JavaScript, so it
also falls back to the default. -/
def getVectorDbDir (envVectorDbPath : Option String) (home : String) : String :=
  match envVectorDbPath with
  | some v => if v = "" then defaultVectorsDir home else v
  | none => defaultVectorsDir home

end VectorPaths

namespace SqliteVec

open CodeContext

/-- The row stored by `insert`: `startLine`/`endLine` go through
`String(...)` into the TEXT columns; the vector is passed through
`JSON.stringify`/`vec_f32` unchanged. -/
def rowOf (d : VectorDocument) : Row :=
  { id := d.id, vector := d.vector, content := d.content,
    relativePath := d.relativePath, startLine := toString d.startLine,
    endLine := toString d.endLine, fileExtension := d.fileExtension,
    metadata := d.metadata }

/-- The row `insertHybrid` adds to the FTS5 table. -/
def ftsRowOf (d : VectorDocument) : FtsRow :=
  { id := d.id, content := d.content, relativePath := d.relativePath,
    fileExtension := d.fileExtension }

/-- A collection's empty-file state: neither table exists yet. -/
def emptyState : DbState := { documents := none, fts := none }

/-- `createCollection`: drops the `documents` table if present and
recreates it empty with the requested dimension.  (It issues no drop for
the `documents_fts` table.) -/
def createCollection (dimension : Nat) (s : DbState) : DbState :=
  { documents := some { dim := dimension, rows := [] }, fts := s.fts }

/-- `createHybridCollection`: drops both tables if present and recreates
them empty. -/
def createHybridCollection (dimension : Nat) (_s : DbState) : DbState :=
  { documents := some { dim := dimension, rows := [] }, fts := some [] }

/-- `dropCollection`: drops both tables. -/
def dropCollection (_s : DbState) : DbState := { documents := none, fts := none }

/-- `hasCollection`: true iff the `documents` table exists. -/
def hasCollection (s : DbState) : Bool := s.documents.isSome

/-- Delete-then-insert of one document (`REPLACE` does not work on vec0). -/
def upsertRow (rows : List Row) (d : VectorDocument) : List Row :=
  rows.filter (fun r => r.id ≠ d.id) ++ [rowOf d]

/-- `insert`: upserts each document into the `documents` table.  A missing
table or a vector whose length differs from the declared `float[D]`
dimension makes the underlying statement throw. -/
def insert (docs : List VectorDocument) (s : DbState) : Except String DbState :=
  match s.documents with
  | none => Except.error ("no such table")
  | some tbl =>
    if docs.all (fun d => d.vector.length = tbl.dim) then
      Except.ok { s with documents := some { tbl with rows := docs.foldl upsertRow tbl.rows } }
    else Except.error ("vector dimension mismatch")

/-- `insertHybrid`: `insert` into the dense table, then append the FTS5
rows; FTS failures (for instance a missing `_fts` table) are swallowed. -/
def insertHybrid (docs : List VectorDocument) (s : DbState) : Except String DbState :=
  match insert docs s with
  | Except.error e => Except.error e
  | Except.ok s1 =>
    Except.ok (match s1.fts with
      | none => s1
      | some f => { s1 with fts := some (f ++ docs.map ftsRowOf) })

/-- The optional `WHERE` clause of `search`/`query`, as a row predicate. -/
def applyFilter (filter : Option (Row → Bool)) (rows : List Row) : List Row :=
  match filter with
  | none => rows
  | some p => rows.filter p

/-- JavaScript falsy defaulting `x || d` for numeric options. -/
def orDefault (x d : Nat) : Nat := if x = 0 then d else x

/-- The rows produced by the `SELECT ... ORDER BY score LIMIT ?` of
`search`: filter, stable-sort by ascending distance to the query, cut to
`topK`.  `dist` stands for sqlite-vec's `vec_distance_cosine`. -/
def searchRows (dist : List ℚ → List ℚ → ℚ) (q : List ℚ) (topK : Nat)
    (filter : Option (Row → Bool)) (tbl : Table) : List Row :=
  ((applyFilter filter tbl.rows).insertionSort
      (fun a b => dist a.vector q ≤ dist b.vector q)).take topK

/-- The document `search` builds from a row (the query vector is echoed
back; the TEXT line columns come back as strings). -/
def searchDocOf (q : List ℚ) (r : Row) : RetDoc :=
  { id := r.id, vector := q, content := r.content,
    relativePath := r.relativePath, startLine := JsVal.str r.startLine,
    endLine := JsVal.str r.endLine, fileExtension := r.fileExtension,
    metadata := r.metadata }

/-- `search`: top-K rows by ascending distance, after the filter.  A
missing `documents` table makes the first prepared statement throw. -/
def search (dist : List ℚ → List ℚ → ℚ) (q : List ℚ) (topK : Nat)
    (filter : Option (Row → Bool)) (s : DbState) :
    Except String (List SearchResult) :=
  match s.documents with
  | none => Except.error ("no such table")
  | some tbl =>
    Except.ok ((searchRows dist q (orDefault topK 10) filter tbl).map
      (fun r => { document := searchDocOf q r, score := dist r.vector q }))

/-- `Map.set` of the RRF accumulation: update the entry in place if the id
is already a key (keeping its position, like a JavaScript `Map`), else
append a fresh entry. -/
def bump (m : List (String × ℚ)) (id : String) (v : ℚ) : List (String × ℚ) :=
  match m with
  | [] => [(id, v)]
  | e :: rest => if e.1 = id then (id, e.2 + v) :: rest else e :: bump rest id v

/-- The `forEach` accumulation loop: rank `r` is 0-based, each occurrence
adds `1 / (60 + rank + 1)` to the id's score. -/
def addRanked (m : List (String × ℚ)) (ids : List String) (r : Nat) :
    List (String × ℚ) :=
  match ids with
  | [] => m
  | id :: rest => addRanked (bump m id (1 / ((60 : ℚ) + r + 1))) rest (r + 1)

/-- Association-list lookup (a JavaScript `Map.get`). -/
def alookup (m : List (String × ℚ)) (id : String) : Option ℚ :=
  match m with
  | [] => none
  | e :: rest => if e.1 = id then some e.2 else alookup rest id

/-- The document `hybridSearch` builds when re-fetching rows by id (the
vector comes back empty). -/
def hybridDocOf (r : Row) : RetDoc :=
  { id := r.id, vector := [], content := r.content,
    relativePath := r.relativePath, startLine := JsVal.str r.startLine,
    endLine := JsVal.str r.endLine, fileExtension := r.fileExtension,
    metadata := r.metadata }

/-- The final `SELECT ... WHERE id IN (...)` plus `docMap` ordering of
`hybridSearch`: each sorted id is resolved to its row; a missing row makes
the JavaScript `doc.id` access throw a `TypeError`. -/
def fetchDocs (rows : List Row) (scores : List (String × ℚ)) :
    List String → Option (List SearchResult)
  | [] => some []
  | id :: rest =>
    match rows.find? (fun r => r.id == id) with
    | none => none
    | some r =>
      (fetchDocs rows scores rest).map
        (fun t => { document := hybridDocOf r, score := (alookup scores id).getD 0 } :: t)

/-- The lexical leg of `hybridSearch`: the FTS5 `MATCH ? ORDER BY rank
LIMIT 50` ids when a text query is present and the `_fts` table exists;
a missing table (the statement throws, caught) or an empty text query
yields no lexical results.  `ftsQuery` stands for the FTS5 engine,
returning matching ids in ascending `rank` order. -/
def hybridTextIds (ftsQuery : List FtsRow → String → List String)
    (qText : String) (s : DbState) : List String :=
  if qText = "" then []
  else match s.fts with
    | none => []
    | some f => (ftsQuery f qText).take 50

/-- The RRF accumulation map of `hybridSearch` (`k = 60`): dense ids first
in ascending-distance order, then lexical ids, each occurrence adding
`1 / (k + rank)` with 1-based rank. -/
def hybridScores (dist : List ℚ → List ℚ → ℚ)
    (ftsQuery : List FtsRow → String → List String)
    (qVec : List ℚ) (qText : String)
    (filter : Option (Row → Bool)) (s : DbState) (tbl : Table) :
    List (String × ℚ) :=
  addRanked (addRanked [] ((searchRows dist qVec 50 filter tbl).map Row.id) 0)
    (hybridTextIds ftsQuery qText s) 0

/-- `hybridSearch`, step 4: stable sort of the RRF map by descending fused
score (JavaScript `sort` with comparator `b[1] - a[1]` is stable), cut to
the requested limit, keeping the ids. -/
def hybridSortedIds (dist : List ℚ → List ℚ → ℚ)
    (ftsQuery : List FtsRow → String → List String)
    (qVec : List ℚ) (qText : String) (limit : Nat)
    (filter : Option (Row → Bool)) (s : DbState) (tbl : Table) : List String :=
  (((hybridScores dist ftsQuery qVec qText filter s tbl).insertionSort
      (fun a b => b.2 ≤ a.2)).take (orDefault limit 10)).map Prod.fst

/-- `hybridSearch` (continued): the branch on the sorted-id list and the
final row re-fetch. -/
def hybridSearch (dist : List ℚ → List ℚ → ℚ)
    (ftsQuery : List FtsRow → String → List String)
    (qVec : List ℚ) (qText : String) (limit : Nat)
    (filter : Option (Row → Bool)) (s : DbState) :
    Except String (List SearchResult) :=
  match s.documents with
  | none => Except.error ("no such table")
  | some tbl =>
    if (hybridSortedIds dist ftsQuery qVec qText limit filter s tbl).isEmpty then
      Except.ok []
    else
      match fetchDocs tbl.rows (hybridScores dist ftsQuery qVec qText filter s tbl)
        (hybridSortedIds dist ftsQuery qVec qText limit filter s tbl) with
      | some res => Except.ok res
      | none => Except.error ("TypeError")

/-- `query`: filtered rows, optionally limited (a zero/absent limit adds
no `LIMIT` clause).  A missing table makes the statement throw. -/
def query (filter : Option (Row → Bool)) (limit : Nat) (s : DbState) :
    Except String (List Row) :=
  match s.documents with
  | none => Except.error ("no such table")
  | some tbl =>
    let rows := applyFilter filter tbl.rows
    Except.ok (if limit = 0 then rows else rows.take limit)

/-- `delete`: first the FTS5 delete inside try/catch (a missing `_fts`
table is swallowed), then the dense delete, which throws if the
`documents` table is missing.  SQLite accepts an empty `IN ()` list as
matching nothing, so an empty id list is a no-op. -/
def delete (ids : List String) (s : DbState) : Except String DbState :=
  let s1 : DbState :=
    match s.fts with
    | none => s
    | some f => { s with fts := some (f.filter (fun r => ¬ ids.contains r.id)) }
  match s1.documents with
  | none => Except.error ("no such table")
  | some tbl =>
    let tbl2 : Table := { tbl with rows := tbl.rows.filter (fun r => ¬ ids.contains r.id) }
    Except.ok { s1 with documents := some tbl2 }

/-- A concrete stand-in for sqlite-vec's distance function in witnesses and
counterexamples: squared euclidean distance, which orders vectors like any
monotone distance would. -/
def sqDist (a b : List ℚ) : ℚ :=
  ((a.zip b).map (fun p2 => (p2.1 - p2.2) * (p2.1 - p2.2))).sum

/-- First index (0-based rank) of an id in a ranked id list. -/
def rankOf : List String → String → Option Nat
  | [], _ => none
  | x :: rest, id => if x = id then some 0 else (rankOf rest id).map (· + 1)

/-- The claim's per-list RRF contribution: `1 / (60 + rank)` with 1-based
rank, `0` when the id is not in the list (transcribed from the
specification, to be compared with the fold the code performs). -/
def rankVal (ids : List String) (id : String) : ℚ :=
  match rankOf ids id with
  | some i => 1 / ((60 : ℚ) + ((i : Nat) : ℚ) + 1)
  | none => 0

/-- The claim's fused score: the sum, over the lists containing the id, of
the reciprocal-rank contributions. -/
def rrfScore (dense text : List String) (id : String) : ℚ :=
  rankVal dense id + rankVal text id

/-- Association list pairing each id with its reciprocal-rank value,
starting at 0-based rank `r0`. -/
def withRanks : List String → Nat → List (String × ℚ)
  | [], _ => []
  | id :: rest, r0 => (id, 1 / ((60 : ℚ) + ((r0 : Nat) : ℚ) + 1)) :: withRanks rest (r0 + 1)

/-- A returned document with its vector blanked, as `hybridSearch` returns
documents (`vector: []`). -/
def stripVec (d : RetDoc) : RetDoc :=
  { d with vector := [] }

/-- A concrete distance instance for counterexamples whose values are the
first coordinate of the stored vector (any monotone distance behaves the
same for ranking purposes). -/
def headDist (a _b : List ℚ) : ℚ := a.headD 0

end SqliteVec

open CodeContext

/-- A state with no dense table but a leftover full-text table, as left
behind by `dropCollection`-free recreation of a hybrid collection. -/
def c6LeftoverState : DbState :=
  { documents := none,
    fts := some [{ id := "x", content := "c", relativePath := "p", fileExtension := "ts" }] }

/-- A two-row dense table plus one FTS row, used to exercise `delete`. -/
def c8State : DbState :=
  { documents := some { dim := 1, rows := [
      { id := "keep", vector := [1], content := "k", relativePath := "a.ts",
        startLine := "1", endLine := "2", fileExtension := "ts", metadata := "" },
      { id := "gone", vector := [2], content := "g", relativePath := "b.ts",
        startLine := "3", endLine := "4", fileExtension := "ts", metadata := "" }] },
    fts := some [
      { id := "gone", content := "g", relativePath := "b.ts", fileExtension := "ts" }] }

/-- The document C10 expects back: all fields as supplied, except that the
line numbers have become their decimal string forms. -/
def c10RetDoc (d : VectorDocument) (q : List ℚ) : RetDoc :=
  { id := d.id, vector := q, content := d.content,
    relativePath := d.relativePath,
    startLine := JsVal.str (toString d.startLine),
    endLine := JsVal.str (toString d.endLine),
    fileExtension := d.fileExtension, metadata := d.metadata }

/-- Dense table used by the C1 witness: two TypeScript rows and a Python
row whose vector is nearest. -/
def c1Table : Table :=
  { dim := 1, rows := [
      { id := "t1", vector := [3], content := "a", relativePath := "a.ts",
        startLine := "1", endLine := "2", fileExtension := "ts", metadata := "" },
      { id := "p1", vector := [1], content := "b", relativePath := "b.py",
        startLine := "1", endLine := "2", fileExtension := "py", metadata := "" },
      { id := "t2", vector := [2], content := "c", relativePath := "c.ts",
        startLine := "1", endLine := "2", fileExtension := "ts", metadata := "" }] }

/-- Collection state for the C1 witness. -/
def c1State : DbState := { documents := some c1Table, fts := none }

/-- 51 rows with distinct one-dimensional vectors. -/
def bigRows : List Row :=
  (List.range 51).map (fun i : Nat =>
    { id := toString i, vector := [((i : Nat) : ℚ)], content := "c",
      relativePath := "p", startLine := "1", endLine := "2",
      fileExtension := "ts", metadata := "m" })

/-- The dense table holding `bigRows`. -/
def bigTable : Table := { dim := 1, rows := bigRows }

/-- A dense-only collection holding `bigRows`. -/
def bigState : DbState := { documents := some bigTable, fts := none }

/-- Number of results of a store read, `none` on error (used to compare
result lists without a decidable equality on `Except`). -/
def resultCount (e : Except String (List SearchResult)) : Option Nat :=
  match e with
  | Except.ok l => some l.length
  | Except.error _ => none

/-- A row whose vector is far from the probe query and which matches the
dense filter. -/
def rowB : CodeContext.Row :=
  { id := "b", vector := [5], content := "bb", relativePath := "x.ts",
    startLine := "1", endLine := "2", fileExtension := "ts", metadata := "" }

/-- A row whose vector is near the probe query but which the dense filter
excludes; its content matches the text query. -/
def rowA : CodeContext.Row :=
  { id := "a", vector := [1], content := "needle", relativePath := "y.ts",
    startLine := "3", endLine := "4", fileExtension := "ts", metadata := "" }

/-- Hybrid table holding `rowB` before `rowA`. -/
def hybTable : CodeContext.Table := { dim := 1, rows := [rowB, rowA] }

/-- The FTS row for `rowA`. -/
def ftsRowA : CodeContext.FtsRow :=
  { id := "a", content := "needle", relativePath := "y.ts", fileExtension := "ts" }

/-- Hybrid collection whose FTS table indexes only `rowA`. -/
def hybState : CodeContext.DbState :=
  { documents := some hybTable, fts := some [ftsRowA] }

/-- A concrete FTS engine: ids of the rows whose content equals the query,
in table order. -/
def contentFts : List CodeContext.FtsRow → String → List String :=
  fun rows qt => (rows.filter (fun r => r.content == qt)).map CodeContext.FtsRow.id

/-- The fused score both candidates receive in the C4 counterexample:
rank 1 in one list each. -/
def tieScore : ℚ := 1 / ((60 : ℚ) + ((0 : Nat) : ℚ) + 1)

set_option maxRecDepth 1000000

namespace Md5

theorem bytesToHexChars_cons (b : Nat) (rest : List Nat) :
    bytesToHexChars (b :: rest) =
      hexChar (b / 16) :: hexChar (b % 16) :: bytesToHexChars rest := rfl

theorem length_bytesToHexChars (bs : List Nat) :
    (bytesToHexChars bs).length = 2 * bs.length := by
  induction bs with
  | nil => rfl
  | cons b rest ih =>
    rw [bytesToHexChars_cons]
    simp [ih]
    omega

theorem length_md5Bytes (msg : List Nat) : (md5Bytes msg).length = 16 := by
  simp [md5Bytes, wordBytes]

theorem hexChar_mem (n : Nat) : hexChar n ∈ hexDigits := by
  rcases Nat.lt_or_ge n 16 with h | h
  · interval_cases n <;> decide
  · unfold hexChar
    rw [List.getD_eq_default]
    · decide
    · have h16 : hexDigits.length = 16 := rfl
      omega

theorem bytesToHexChars_mem (bs : List Nat) :
    ∀ c ∈ bytesToHexChars bs, c ∈ hexDigits := by
  induction bs with
  | nil => intro c hc; simp [bytesToHexChars] at hc
  | cons b rest ih =>
    intro c hc
    rw [bytesToHexChars_cons] at hc
    rcases List.mem_cons.mp hc with h | hc2
    · exact h ▸ hexChar_mem _
    · rcases List.mem_cons.mp hc2 with h | h
      · exact h ▸ hexChar_mem _
      · exact ih c h

/-- MD5 of the empty string, pinned against the RFC 1321 test suite. -/
theorem md5_rfc_empty : md5HexString [] = "d41d8cd98f00b204e9800998ecf8427e" := by decide

/-- MD5 of "abc", pinned against the RFC 1321 test suite. -/
theorem md5_rfc_abc :
    md5HexString (utf8Bytes "abc") = "900150983cd24fb0d6963f7d28e17f72" := by decide

end Md5

namespace SqliteVec

theorem rankOf_eq_none (ids : List String) (id : String) :
    rankOf ids id = none ↔ id ∉ ids := by
  induction ids with
  | nil => simp [rankOf]
  | cons x rest ih =>
    by_cases hx : x = id
    · simp [rankOf, hx]
    · simp [rankOf, hx, Option.map_eq_none, ih, Ne.symm hx]

theorem alookup_bump (m : List (String × ℚ)) (id id2 : String) (v : ℚ) :
    alookup (bump m id v) id2 =
      if id2 = id then some ((alookup m id).getD 0 + v) else alookup m id2 := by
  induction m with
  | nil =>
    by_cases h : id2 = id
    · subst h
      simp [bump, alookup]
    · have h' : ¬ id = id2 := fun hc => h hc.symm
      simp [bump, alookup, h, h']
  | cons e rest ih =>
    by_cases h2 : id2 = id
    · subst h2
      by_cases he : e.1 = id2
      · simp [bump, alookup, he]
      · simp [bump, alookup, he, ih]
    · have h2' : ¬ id = id2 := fun hc => h2 hc.symm
      by_cases he : e.1 = id
      · have hee : ¬ e.1 = id2 := fun hc => h2 (by rw [← hc, he])
        simp [bump, alookup, he, h2, h2', hee]
      · by_cases hee : e.1 = id2
        · simp [bump, alookup, he, hee, h2]
        · simp [bump, alookup, he, hee, h2, ih]

theorem bump_of_not_mem (m : List (String × ℚ)) (id : String) (v : ℚ)
    (h : id ∉ m.map Prod.fst) : bump m id v = m ++ [(id, v)] := by
  induction m with
  | nil => rfl
  | cons e rest ih =>
    have h1 : ¬ e.1 = id := fun hc => h (by simp [hc])
    have h2 : id ∉ rest.map Prod.fst := fun hc => h (by simp [hc])
    simp [bump, h1, ih h2]

theorem keys_bump (m : List (String × ℚ)) (id : String) (v : ℚ) :
    (bump m id v).map Prod.fst =
      if id ∈ m.map Prod.fst then m.map Prod.fst else m.map Prod.fst ++ [id] := by
  induction m with
  | nil => simp [bump]
  | cons e rest ih =>
    by_cases he : e.1 = id
    · simp [bump, he]
    · have : ¬ id = e.1 := fun hc => he hc.symm
      by_cases hm : id ∈ rest.map Prod.fst <;>
        simp [bump, he, ih, hm, this]

theorem keys_addRanked (ids : List String) :
    ∀ (m : List (String × ℚ)) (r0 : Nat), ids.Nodup →
      (addRanked m ids r0).map Prod.fst =
        m.map Prod.fst ++ ids.filter (fun id => decide (id ∉ m.map Prod.fst)) := by
  induction ids with
  | nil => intro m r0 _; simp [addRanked]
  | cons id0 rest ih =>
    intro m r0 hnd
    have hnd2 := (List.nodup_cons.mp hnd).2
    have hid0 := (List.nodup_cons.mp hnd).1
    by_cases hmem : id0 ∈ m.map Prod.fst
    · rw [addRanked, ih _ _ hnd2, keys_bump, if_pos hmem]
      simp [hmem]
    · rw [addRanked, ih _ _ hnd2, keys_bump, if_neg hmem]
      have hfeq : rest.filter
          (fun id => decide (id ∉ (m.map Prod.fst ++ [id0]))) =
          rest.filter (fun id => decide (id ∉ m.map Prod.fst)) := by
        apply List.filter_congr
        intro x hx
        have : ¬ x = id0 := fun hc => hid0 (hc ▸ hx)
        simp [this]
      rw [hfeq]
      simp [hmem, List.filter_cons]

theorem keys_addRanked_nodup (ids : List String) (m : List (String × ℚ)) (r0 : Nat)
    (hm : (m.map Prod.fst).Nodup) (hids : ids.Nodup) :
    ((addRanked m ids r0).map Prod.fst).Nodup := by
  rw [keys_addRanked ids m r0 hids]
  apply List.Nodup.append hm (hids.filter _)
  intro a ha hb
  have hp := (List.mem_filter.mp hb).2
  rw [decide_eq_true_eq] at hp
  exact hp ha

theorem alookup_of_mem_nodup (m : List (String × ℚ)) (e : String × ℚ)
    (hm : (m.map Prod.fst).Nodup) (he : e ∈ m) : alookup m e.1 = some e.2 := by
  induction m with
  | nil => simp at he
  | cons x rest ih =>
    rcases List.mem_cons.mp he with h | h
    · simp [alookup, h]
    · have hx : ¬ x.1 = e.1 := by
        intro hc
        have : e.1 ∈ rest.map Prod.fst := List.mem_map.mpr ⟨e, h, rfl⟩
        exact (List.nodup_cons.mp hm).1 (hc ▸ this)
      simp [alookup, hx]
      exact ih (List.nodup_cons.mp hm).2 h

theorem alookup_isSome_iff (m : List (String × ℚ)) (id : String) :
    (alookup m id).isSome ↔ id ∈ m.map Prod.fst := by
  induction m with
  | nil => simp [alookup]
  | cons e rest ih =>
    by_cases he : e.1 = id
    · simp [alookup, he]
    · simp [alookup, he, ih, Ne.symm he]

theorem alookup_addRanked (ids : List String) :
    ∀ (m : List (String × ℚ)) (r0 : Nat) (id : String), ids.Nodup →
      alookup (addRanked m ids r0) id =
        match alookup m id, rankOf ids id with
        | none, none => none
        | some v, none => some v
        | none, some i => some (1 / ((60 : ℚ) + (((r0 + i : Nat)) : ℚ) + 1))
        | some v, some i => some (v + 1 / ((60 : ℚ) + (((r0 + i : Nat)) : ℚ) + 1)) := by
  induction ids with
  | nil =>
    intro m r0 id _
    cases h : alookup m id <;> simp [addRanked, rankOf, h]
  | cons id0 rest ih =>
    intro m r0 id hnd
    have hnd2 := (List.nodup_cons.mp hnd).2
    have hid0 := (List.nodup_cons.mp hnd).1
    rw [addRanked, ih _ _ _ hnd2]
    by_cases hid : id = id0
    · subst hid
      have hr : rankOf rest id = none := (rankOf_eq_none rest id).mpr hid0
      have hr2 : rankOf (id :: rest) id = some 0 := by simp [rankOf]
      rw [alookup_bump, if_pos rfl, hr, hr2]
      cases hm : alookup m id with
      | none => simp
      | some v => simp
    · have hne : ¬ id0 = id := fun hc => hid hc.symm
      have hr2 : rankOf (id0 :: rest) id = (rankOf rest id).map (· + 1) := by
        simp [rankOf, hne]
      rw [alookup_bump, if_neg hid, hr2]
      cases hm : alookup m id with
      | none =>
        cases hr : rankOf rest id with
        | none => simp
        | some i =>
          have harith : ((r0 + 1) + i : Nat) = (r0 + (i + 1) : Nat) := by omega
          simp [harith]
      | some v =>
        cases hr : rankOf rest id with
        | none => simp
        | some i =>
          have harith : ((r0 + 1) + i : Nat) = (r0 + (i + 1) : Nat) := by omega
          simp [harith]

theorem filter_orderedInsert_desc (v : ℚ) (a : String × ℚ) (l : List (String × ℚ)) :
    (l.orderedInsert (fun x y => y.2 ≤ x.2) a).filter (fun e => decide (e.2 = v)) =
      if a.2 = v then a :: l.filter (fun e => decide (e.2 = v))
      else l.filter (fun e => decide (e.2 = v)) := by
  induction l with
  | nil => by_cases h : a.2 = v <;> simp [List.orderedInsert, h]
  | cons b l ih =>
    by_cases hle : b.2 ≤ a.2
    · rw [List.orderedInsert, if_pos hle]
      by_cases ha : a.2 = v <;> simp [List.filter_cons, ha]
    · have hlt : a.2 < b.2 := not_le.mp hle
      rw [List.orderedInsert, if_neg hle]
      by_cases hb : b.2 = v
      · have ha : ¬ a.2 = v := by
          intro hc
          rw [hc, hb] at hlt
          exact lt_irrefl v hlt
        simp [List.filter_cons, hb, ha, ih]
      · simp [List.filter_cons, hb, ih]

theorem filter_insertionSort_desc (v : ℚ) (l : List (String × ℚ)) :
    (l.insertionSort (fun x y => y.2 ≤ x.2)).filter (fun e => decide (e.2 = v)) =
      l.filter (fun e => decide (e.2 = v)) := by
  induction l with
  | nil => rfl
  | cons a l ih =>
    rw [List.insertionSort, filter_orderedInsert_desc, ih]
    by_cases ha : a.2 = v <;> simp [List.filter_cons, ha]

theorem withRanks_val_mem (ids : List String) :
    ∀ (r0 : Nat) (e : String × ℚ), e ∈ withRanks ids r0 →
      ∃ i : Nat, e.2 = 1 / ((60 : ℚ) + (((r0 + i : Nat)) : ℚ) + 1) := by
  induction ids with
  | nil => intro r0 e he; simp [withRanks] at he
  | cons id rest ih =>
    intro r0 e he
    rcases List.mem_cons.mp he with h | h
    · refine ⟨0, ?_⟩
      rw [h]
      simp
    · obtain ⟨i, hi⟩ := ih (r0 + 1) e h
      refine ⟨i + 1, ?_⟩
      rw [hi]
      have : ((r0 + 1) + i : Nat) = (r0 + (i + 1) : Nat) := by omega
      rw [this]

theorem withRanks_sorted (ids : List String) :
    ∀ r0 : Nat, (withRanks ids r0).Sorted (fun a b : String × ℚ => b.2 ≤ a.2) := by
  induction ids with
  | nil => intro r0; simp [withRanks]
  | cons id rest ih =>
    intro r0
    rw [withRanks]
    refine List.sorted_cons.mpr ⟨?_, ih (r0 + 1)⟩
    intro e he
    obtain ⟨i, hi⟩ := withRanks_val_mem rest (r0 + 1) e he
    rw [hi]
    apply one_div_le_one_div_of_le
    · positivity
    · push_cast
      linarith

theorem keys_withRanks (ids : List String) :
    ∀ r0 : Nat, (withRanks ids r0).map Prod.fst = ids := by
  induction ids with
  | nil => intro r0; rfl
  | cons id rest ih => intro r0; simp [withRanks, ih]

theorem addRanked_of_disjoint (ids : List String) :
    ∀ (m : List (String × ℚ)) (r0 : Nat), ids.Nodup →
      (∀ id ∈ ids, id ∉ m.map Prod.fst) →
      addRanked m ids r0 = m ++ withRanks ids r0 := by
  induction ids with
  | nil => intro m r0 _ _; simp [addRanked, withRanks]
  | cons id0 rest ih =>
    intro m r0 hnd hdisj
    rw [addRanked, bump_of_not_mem _ _ _ (hdisj id0 (List.mem_cons_self _ _))]
    rw [ih _ _ (List.nodup_cons.mp hnd).2 ?_]
    · rw [withRanks]
      simp
    · intro id hid hmem
      rw [List.map_append] at hmem
      rcases List.mem_append.mp hmem with h | h
      · exact hdisj id (List.mem_cons_of_mem _ hid) h
      · simp at h
        exact (List.nodup_cons.mp hnd).1 (h ▸ hid)

theorem find?_id_nodup (rows : List Row) :
    (rows.map Row.id).Nodup → ∀ r : Row, r ∈ rows →
      rows.find? (fun x => x.id == r.id) = some r := by
  induction rows with
  | nil => intro _ r hr; simp at hr
  | cons x rest ih =>
    intro hnd r hr
    rcases List.mem_cons.mp hr with h | h
    · subst h
      simp [List.find?]
    · have hx : (x.id == r.id) = false := by
        rw [beq_eq_false_iff_ne]
        intro hc
        have : r.id ∈ rest.map Row.id := List.mem_map.mpr ⟨r, h, rfl⟩
        exact (List.nodup_cons.mp hnd).1 (hc ▸ this)
      rw [List.find?_cons_of_neg _ (by simp [hx])]
      exact ih (List.nodup_cons.mp hnd).2 r h

theorem fetchDocs_of_rows (rows : List Row) (scores : List (String × ℚ))
    (hnd : (rows.map Row.id).Nodup) :
    ∀ l : List Row, (∀ r ∈ l, r ∈ rows) →
      fetchDocs rows scores (l.map Row.id) =
        some (l.map (fun r => CodeContext.SearchResult.mk (hybridDocOf r)
          ((alookup scores r.id).getD 0))) := by
  intro l
  induction l with
  | nil => intro _; rfl
  | cons r rest ih =>
    intro hsub
    rw [List.map_cons]
    simp only [fetchDocs]
    rw [find?_id_nodup rows hnd r (hsub r (List.mem_cons_self _ _))]
    rw [ih (fun x hx => hsub x (List.mem_cons_of_mem _ hx))]
    rfl

theorem fetchDocs_spec (rows : List Row) (scores : List (String × ℚ)) :
    ∀ ids : List String, (∀ id ∈ ids, ∃ r ∈ rows, r.id = id) →
      ∃ res, fetchDocs rows scores ids = some res ∧
        res.map (fun h => (h.document.id, h.score)) =
          ids.map (fun id => (id, (alookup scores id).getD 0)) := by
  intro ids
  induction ids with
  | nil => intro _; exact ⟨[], rfl, rfl⟩
  | cons id rest ih =>
    intro hex
    obtain ⟨r0, hr0, hid0⟩ := hex id (List.mem_cons_self _ _)
    have hsome : (rows.find? (fun x => x.id == id)).isSome := by
      rw [List.find?_isSome]
      exact ⟨r0, hr0, by simp [hid0]⟩
    obtain ⟨r1, hr1⟩ := Option.isSome_iff_exists.mp hsome
    have hr1id : r1.id = id := by
      have := List.find?_some hr1
      simpa using this
    obtain ⟨res, hres, hmap⟩ := ih (fun x hx => hex x (List.mem_cons_of_mem _ hx))
    refine ⟨{ document := hybridDocOf r1, score := (alookup scores id).getD 0 } :: res,
      ?_, ?_⟩
    · simp only [fetchDocs, hr1, hres]
      rfl
    · simp [hmap, hybridDocOf, hr1id]

theorem applyFilter_sublist (filter : Option (Row → Bool)) (rows : List Row) :
    (applyFilter filter rows).Sublist rows := by
  cases filter with
  | none => exact List.Sublist.refl _
  | some p => exact List.filter_sublist _

theorem searchRows_mem (dist : List ℚ → List ℚ → ℚ) (q : List ℚ) (topK : Nat)
    (filter : Option (Row → Bool)) (tbl : Table) :
    ∀ r ∈ searchRows dist q topK filter tbl, r ∈ tbl.rows := by
  intro r hr
  have h1 := List.mem_of_mem_take hr
  have h2 := (List.perm_insertionSort
    (fun a b : Row => dist a.vector q ≤ dist b.vector q) _).mem_iff.mp h1
  exact (applyFilter_sublist filter tbl.rows).mem h2

theorem searchRows_ids_nodup (dist : List ℚ → List ℚ → ℚ) (q : List ℚ) (topK : Nat)
    (filter : Option (Row → Bool)) (tbl : Table)
    (hnd : (tbl.rows.map Row.id).Nodup) :
    ((searchRows dist q topK filter tbl).map Row.id).Nodup := by
  have h1 : ((applyFilter filter tbl.rows).map Row.id).Nodup :=
    hnd.sublist ((applyFilter_sublist filter tbl.rows).map Row.id)
  have h2 : (((applyFilter filter tbl.rows).insertionSort
      (fun a b : Row => dist a.vector q ≤ dist b.vector q)).map Row.id).Nodup :=
    (((List.perm_insertionSort _ _).map Row.id).nodup_iff).mpr h1
  exact h2.sublist ((List.take_sublist _ _).map Row.id)

theorem hybrid_run (dist : List ℚ → List ℚ → ℚ)
    (ftsQuery : List FtsRow → String → List String)
    (qVec : List ℚ) (qText : String) (limit : Nat)
    (filter : Option (Row → Bool)) (s : DbState) (tbl : Table)
    (hs : s.documents = some tbl)
    (hnd : (tbl.rows.map Row.id).Nodup)
    (hlimit : 0 < limit)
    (htnd : (hybridTextIds ftsQuery qText s).Nodup)
    (hsub : ∀ id ∈ hybridTextIds ftsQuery qText s, ∃ r ∈ tbl.rows, r.id = id) :
    ∃ res, hybridSearch dist ftsQuery qVec qText limit filter s = Except.ok res ∧
      res.map (fun h => (h.document.id, h.score)) =
        ((hybridScores dist ftsQuery qVec qText filter s tbl).insertionSort
          (fun a b => b.2 ≤ a.2)).take limit := by
  have hdef : orDefault limit 10 = limit := by
    simp [orDefault, Nat.pos_iff_ne_zero.mp hlimit]
  have hdnd : (((searchRows dist qVec 50 filter tbl).map Row.id)).Nodup :=
    searchRows_ids_nodup dist qVec 50 filter tbl hnd
  have hkeys_inner : (addRanked [] ((searchRows dist qVec 50 filter tbl).map Row.id)
      0).map Prod.fst = (searchRows dist qVec 50 filter tbl).map Row.id := by
    rw [keys_addRanked _ _ _ hdnd]
    simp
  have hscores_nodup :
      ((hybridScores dist ftsQuery qVec qText filter s tbl).map Prod.fst).Nodup := by
    unfold hybridScores
    exact keys_addRanked_nodup _ _ _ (by rw [hkeys_inner]; exact hdnd) htnd
  have hkeys : (hybridScores dist ftsQuery qVec qText filter s tbl).map Prod.fst =
      (searchRows dist qVec 50 filter tbl).map Row.id ++
        (hybridTextIds ftsQuery qText s).filter
          (fun id => decide (id ∉ (searchRows dist qVec 50 filter tbl).map Row.id)) := by
    unfold hybridScores
    rw [keys_addRanked _ _ _ htnd, hkeys_inner]
  have hrow : ∀ id ∈ (hybridScores dist ftsQuery qVec qText filter s tbl).map Prod.fst,
      ∃ r ∈ tbl.rows, r.id = id := by
    intro id hid
    rw [hkeys] at hid
    rcases List.mem_append.mp hid with h | h
    · obtain ⟨r, hr, hrid⟩ := List.mem_map.mp h
      exact ⟨r, searchRows_mem dist qVec 50 filter tbl r hr, hrid⟩
    · exact hsub id (List.mem_filter.mp h).1
  have hperm : ((hybridScores dist ftsQuery qVec qText filter s tbl).insertionSort
      (fun a b => b.2 ≤ a.2)).Perm
      (hybridScores dist ftsQuery qVec qText filter s tbl) :=
    List.perm_insertionSort _ _
  have hids : ∀ id ∈ hybridSortedIds dist ftsQuery qVec qText limit filter s tbl,
      ∃ r ∈ tbl.rows, r.id = id := by
    intro id hid
    unfold hybridSortedIds at hid
    obtain ⟨e, he, heid⟩ := List.mem_map.mp hid
    have hmem : e ∈ hybridScores dist ftsQuery qVec qText filter s tbl :=
      hperm.mem_iff.mp (List.mem_of_mem_take he)
    exact heid ▸ hrow e.1 (List.mem_map.mpr ⟨e, hmem, rfl⟩)
  obtain ⟨res, hres, hpairs⟩ := fetchDocs_spec tbl.rows
    (hybridScores dist ftsQuery qVec qText filter s tbl)
    (hybridSortedIds dist ftsQuery qVec qText limit filter s tbl) hids
  have hconv : (hybridSortedIds dist ftsQuery qVec qText limit filter s tbl).map
      (fun id => (id,
        (alookup (hybridScores dist ftsQuery qVec qText filter s tbl) id).getD 0)) =
      ((hybridScores dist ftsQuery qVec qText filter s tbl).insertionSort
        (fun a b => b.2 ≤ a.2)).take limit := by
    unfold hybridSortedIds
    rw [hdef, List.map_map]
    have hpt : ∀ e ∈ ((hybridScores dist ftsQuery qVec qText filter s tbl).insertionSort
        (fun a b => b.2 ≤ a.2)).take limit,
        ((fun id => (id,
          (alookup (hybridScores dist ftsQuery qVec qText filter s tbl) id).getD 0)) ∘
            Prod.fst) e = id e := by
      intro e he
      have hmem : e ∈ hybridScores dist ftsQuery qVec qText filter s tbl :=
        hperm.mem_iff.mp (List.mem_of_mem_take he)
      have hl := alookup_of_mem_nodup _ e hscores_nodup hmem
      simp [Function.comp, hl]
    rw [List.map_congr_left hpt, List.map_id]
  refine ⟨res, ?_, ?_⟩
  · unfold hybridSearch
    rw [hs]
    by_cases hemp : (hybridSortedIds dist ftsQuery qVec qText limit filter s tbl).isEmpty
    · have hnil : hybridSortedIds dist ftsQuery qVec qText limit filter s tbl = [] :=
        List.isEmpty_iff.mp hemp
      have hres2 : res = [] := by
        have hthis := hpairs
        rw [hnil] at hthis
        simpa using List.map_eq_nil_iff.mp hthis
      simp only [hemp, if_true, hres2]
    · rw [Bool.not_eq_true] at hemp
      simp only [hemp, hres]
      simp
  · rw [hpairs, hconv]

theorem stripVec_searchDocOf (q : List ℚ) (r : Row) :
    stripVec (searchDocOf q r) = hybridDocOf r := rfl

theorem length_withRanks (ids : List String) :
    ∀ r0 : Nat, (withRanks ids r0).length = ids.length := by
  induction ids with
  | nil => intro r0; rfl
  | cons id rest ih => intro r0; simp [withRanks, ih]

theorem length_searchRows (dist : List ℚ → List ℚ → ℚ) (q : List ℚ) (topK : Nat)
    (filter : Option (Row → Bool)) (tbl : Table) :
    (searchRows dist q topK filter tbl).length =
      min topK (applyFilter filter tbl.rows).length := by
  unfold searchRows
  rw [List.length_take, List.length_insertionSort]

theorem alookup_mem (m : List (String × ℚ)) (id : String) (v : ℚ) :
    alookup m id = some v → (id, v) ∈ m := by
  induction m with
  | nil => intro h; cases h
  | cons e rest ih =>
    intro h
    by_cases he : e.1 = id
    · simp only [alookup, he, if_pos] at h
      have : e = (id, v) := Prod.ext he (by injection h)
      exact this ▸ List.mem_cons_self _ _
    · simp only [alookup, he, if_neg, if_false] at h
      exact List.mem_cons_of_mem _ (ih h)

theorem hybridScores_keys (dist : List ℚ → List ℚ → ℚ)
    (ftsQuery : List FtsRow → String → List String)
    (qVec : List ℚ) (qText : String) (filter : Option (Row → Bool))
    (s : DbState) (tbl : Table)
    (hnd : (tbl.rows.map Row.id).Nodup)
    (htnd : (hybridTextIds ftsQuery qText s).Nodup) :
    (hybridScores dist ftsQuery qVec qText filter s tbl).map Prod.fst =
      (searchRows dist qVec 50 filter tbl).map Row.id ++
        (hybridTextIds ftsQuery qText s).filter
          (fun id => decide (id ∉ (searchRows dist qVec 50 filter tbl).map Row.id)) := by
  have hdnd := searchRows_ids_nodup dist qVec 50 filter tbl hnd
  unfold hybridScores
  rw [keys_addRanked _ _ _ htnd, keys_addRanked _ _ _ hdnd]
  simp

theorem hybridScores_keys_nodup (dist : List ℚ → List ℚ → ℚ)
    (ftsQuery : List FtsRow → String → List String)
    (qVec : List ℚ) (qText : String) (filter : Option (Row → Bool))
    (s : DbState) (tbl : Table)
    (hnd : (tbl.rows.map Row.id).Nodup)
    (htnd : (hybridTextIds ftsQuery qText s).Nodup) :
    ((hybridScores dist ftsQuery qVec qText filter s tbl).map Prod.fst).Nodup := by
  have hdnd := searchRows_ids_nodup dist qVec 50 filter tbl hnd
  have hkeys_inner : (addRanked [] ((searchRows dist qVec 50 filter tbl).map Row.id)
      0).map Prod.fst = (searchRows dist qVec 50 filter tbl).map Row.id := by
    rw [keys_addRanked _ _ _ hdnd]
    simp
  unfold hybridScores
  exact keys_addRanked_nodup _ _ _ (by rw [hkeys_inner]; exact hdnd) htnd

theorem rankOf_mem (ids : List String) (id : String) (i : Nat)
    (h : rankOf ids id = some i) : id ∈ ids := by
  by_contra hc
  rw [(rankOf_eq_none ids id).mpr hc] at h
  cases h

theorem alookup_hybridScores (dist : List ℚ → List ℚ → ℚ)
    (ftsQuery : List FtsRow → String → List String)
    (qVec : List ℚ) (qText : String) (filter : Option (Row → Bool))
    (s : DbState) (tbl : Table)
    (hnd : (tbl.rows.map Row.id).Nodup)
    (htnd : (hybridTextIds ftsQuery qText s).Nodup) (id : String) :
    alookup (hybridScores dist ftsQuery qVec qText filter s tbl) id =
      if id ∈ (searchRows dist qVec 50 filter tbl).map Row.id ∨
          id ∈ hybridTextIds ftsQuery qText s then
        some (rrfScore ((searchRows dist qVec 50 filter tbl).map Row.id)
          (hybridTextIds ftsQuery qText s) id)
      else none := by
  have hdnd := searchRows_ids_nodup dist qVec 50 filter tbl hnd
  unfold hybridScores
  rw [alookup_addRanked _ _ _ _ htnd, alookup_addRanked _ _ _ _ hdnd]
  unfold rrfScore rankVal
  cases hd : rankOf ((searchRows dist qVec 50 filter tbl).map Row.id) id with
  | none =>
    have h1 : id ∉ (searchRows dist qVec 50 filter tbl).map Row.id :=
      (rankOf_eq_none _ _).mp hd
    cases ht : rankOf (hybridTextIds ftsQuery qText s) id with
    | none =>
      have h2 : id ∉ hybridTextIds ftsQuery qText s := (rankOf_eq_none _ _).mp ht
      simp [alookup, h1, h2]
    | some j =>
      have h2 : id ∈ hybridTextIds ftsQuery qText s := rankOf_mem _ _ _ ht
      simp [alookup, h2]
  | some i =>
    have h1 : id ∈ (searchRows dist qVec 50 filter tbl).map Row.id :=
      rankOf_mem _ _ _ hd
    cases ht : rankOf (hybridTextIds ftsQuery qText s) id with
    | none => simp [alookup, h1]
    | some j => simp [alookup, h1]

end SqliteVec

/-- C2 (amended): when the collection's tables do not exist, every read
operation of the store — `search`, `hybridSearch` and `query` — throws a
table-not-found error; none of them returns an empty result list. -/
theorem C2_reads_throw_on_missing_tables
    (dist : List ℚ → List ℚ → ℚ) (ftsQuery : List FtsRow → String → List String)
    (q : List ℚ) (qText : String) (topK limit qlimit : Nat)
    (filter : Option (Row → Bool)) (s : DbState)
    (h : s.documents = none) :
    SqliteVec.search dist q topK filter s = Except.error ("no such table") ∧
    SqliteVec.hybridSearch dist ftsQuery q qText limit filter s =
      Except.error ("no such table") ∧
    SqliteVec.query filter qlimit s = Except.error ("no such table") := by
  unfold SqliteVec.search SqliteVec.hybridSearch SqliteVec.query
  rw [h]
  exact ⟨rfl, rfl, rfl⟩

/-- Witness for C2: a freshly opened database file has no tables, and all
three reads report the missing table. -/
theorem C2_reads_throw_on_missing_tables_witness :
    SqliteVec.search SqliteVec.sqDist [1] 5 none SqliteVec.emptyState =
      Except.error ("no such table") ∧
    SqliteVec.hybridSearch SqliteVec.sqDist (fun _ _ => []) [1] "t" 5 none
      SqliteVec.emptyState = Except.error ("no such table") ∧
    SqliteVec.query none 5 SqliteVec.emptyState = Except.error ("no such table") :=
  C2_reads_throw_on_missing_tables SqliteVec.sqDist (fun _ _ => []) [1] "t" 5 5 5
    none SqliteVec.emptyState rfl

/-- Counterexample to C2 as stated: the claim predicts that `search`,
`hybridSearch` and `query` return an empty list on a collection whose
tables do not exist; on such a state all three return an error instead. -/
theorem C2_counterexample :
    SqliteVec.search SqliteVec.sqDist [1] 5 none SqliteVec.emptyState ≠
      Except.ok [] ∧
    SqliteVec.hybridSearch SqliteVec.sqDist (fun _ _ => []) [1] "t" 5 none
      SqliteVec.emptyState ≠ Except.ok [] ∧
    SqliteVec.query none 5 SqliteVec.emptyState ≠ Except.ok [] ∧
    SqliteVec.search SqliteVec.sqDist [1] 5 none SqliteVec.emptyState =
      Except.error ("no such table") := by
  refine ⟨?_, ?_, ?_, rfl⟩
  · rw [show SqliteVec.search SqliteVec.sqDist [1] 5 none SqliteVec.emptyState =
      Except.error ("no such table") from rfl]
    simp
  · rw [show SqliteVec.hybridSearch SqliteVec.sqDist (fun _ _ => []) [1] "t" 5 none
      SqliteVec.emptyState = Except.error ("no such table") from rfl]
    simp
  · rw [show SqliteVec.query none 5 SqliteVec.emptyState =
      Except.error ("no such table") from rfl]
    simp

/-- Counterexample to C6 as stated: `createCollection` does not drop a
full-text table left over from a previous hybrid-mode creation — the
leftover FTS5 table survives unchanged. -/
theorem C6_counterexample :
    (SqliteVec.createCollection 4 c6LeftoverState).fts ≠ none ∧
    (SqliteVec.createCollection 4 c6LeftoverState).fts = c6LeftoverState.fts := by
  exact ⟨by decide, rfl⟩

/-- C6 (amended): `createCollection` drops and recreates only the dense
table, leaving any full-text table untouched, and is idempotent;
`createHybridCollection` drops and recreates both tables (including a
leftover FTS5 table) and is idempotent. -/
theorem C6_createCollection_amended (dimension : Nat) (s : DbState) :
    SqliteVec.createCollection dimension s =
      { documents := some { dim := dimension, rows := [] }, fts := s.fts } ∧
    SqliteVec.createCollection dimension (SqliteVec.createCollection dimension s) =
      SqliteVec.createCollection dimension s ∧
    SqliteVec.createHybridCollection dimension s =
      { documents := some { dim := dimension, rows := [] }, fts := some [] } ∧
    SqliteVec.createHybridCollection dimension
        (SqliteVec.createHybridCollection dimension s) =
      SqliteVec.createHybridCollection dimension s :=
  ⟨rfl, rfl, rfl, rfl⟩

/-- C9 (amended): only the store's directory resolution
(`getVectorDbDir` in `sqlite-vec-vectordb.ts`) honors `VECTOR_DB_PATH`;
the path registry of `vector-paths.ts` (`getVectorDbPath`,
`listAllVectorDbs`, orphan cleanup) always uses
`<home>/.code-context/vectors`, whatever the environment holds. -/
theorem C9_env_override_amended (env : Option String) (home v : String)
    (resolve : String → String) (p : String) (hv : v ≠ "") :
    VectorPaths.getVectorDbDir (some v) home = v ∧
    VectorPaths.getVectorDbDir none home = VectorPaths.defaultVectorsDir home ∧
    VectorPaths.registryVectorDbDir env home = VectorPaths.defaultVectorsDir home ∧
    VectorPaths.getVectorDbPath env home resolve p =
      VectorPaths.defaultVectorsDir home ++ "/" ++
        VectorPaths.getPathHash resolve p ++ ".db" := by
  refine ⟨?_, rfl, rfl, rfl⟩
  simp [VectorPaths.getVectorDbDir, hv]

/-- Witness for C9 (amended) at a concrete environment and home. -/
theorem C9_env_override_amended_witness :
    VectorPaths.getVectorDbDir (some "/custom") "/home/u" = "/custom" ∧
    VectorPaths.getVectorDbDir none "/home/u" =
      VectorPaths.defaultVectorsDir "/home/u" ∧
    VectorPaths.registryVectorDbDir (some "/custom") "/home/u" =
      VectorPaths.defaultVectorsDir "/home/u" ∧
    VectorPaths.getVectorDbPath (some "/custom") "/home/u" (fun s => s) "/tmp/proj" =
      VectorPaths.defaultVectorsDir "/home/u" ++ "/" ++
        VectorPaths.getPathHash (fun s => s) "/tmp/proj" ++ ".db" :=
  C9_env_override_amended (some "/custom") "/home/u" "/custom" (fun s => s)
    "/tmp/proj" (by decide)

/-- Counterexample to C9 as stated: with `VECTOR_DB_PATH=/custom`, the
store resolves `/custom` but the path registry still resolves the default
`<home>/.code-context/vectors` directory. -/
theorem C9_counterexample :
    VectorPaths.getVectorDbDir (some "/custom") "/home/u" = "/custom" ∧
    VectorPaths.registryVectorDbDir (some "/custom") "/home/u" ≠ "/custom" ∧
    VectorPaths.registryVectorDbDir (some "/custom") "/home/u" =
      "/home/u/.code-context/vectors" := by
  refine ⟨by decide, by decide, rfl⟩

/-- C8: `delete` removes the rows with the given ids from the dense table
and, when it exists, from the full-text table; ids with no matching row
are silently ignored (the state equation shows the call succeeds and
filters only matching rows), and when no row matches any id both tables
are left exactly as they were. -/
theorem C8_delete_spec (ids : List String) (s : DbState) (tbl : Table)
    (h : s.documents = some tbl) :
    SqliteVec.delete ids s = Except.ok (CodeContext.DbState.mk
      (some (CodeContext.Table.mk tbl.dim
        (tbl.rows.filter (fun r => ¬ ids.contains r.id))))
      (s.fts.map (fun f => f.filter (fun r => ¬ ids.contains r.id)))) ∧
    ((∀ r ∈ tbl.rows, r.id ∉ ids) →
      tbl.rows.filter (fun r => ¬ ids.contains r.id) = tbl.rows) ∧
    (∀ f, s.fts = some f → (∀ r ∈ f, r.id ∉ ids) →
      f.filter (fun r => ¬ ids.contains r.id) = f) := by
  refine ⟨?_, ?_, ?_⟩
  · cases hf : s.fts with
    | none => simp [SqliteVec.delete, hf, h]
    | some f => simp [SqliteVec.delete, hf, h]
  · intro hnone
    apply List.filter_eq_self.mpr
    intro r hr
    simpa using hnone r hr
  · intro f hf hnone
    apply List.filter_eq_self.mpr
    intro r hr
    simpa using hnone r hr

/-- Witness for C8 at a concrete state: deleting one present and one
missing id removes the matching rows from both tables and nothing else. -/
theorem C8_delete_spec_witness :
    SqliteVec.delete ["gone", "missing"] c8State = Except.ok (CodeContext.DbState.mk
      (some (CodeContext.Table.mk 1
        ((c8State.documents.getD (CodeContext.Table.mk 0 [])).rows.filter
          (fun r => ¬ (["gone", "missing"] : List String).contains r.id))))
      (c8State.fts.map (fun f => f.filter
        (fun r => ¬ (["gone", "missing"] : List String).contains r.id)))) ∧
    ((∀ r ∈ (c8State.documents.getD (CodeContext.Table.mk 0 [])).rows,
        r.id ∉ (["gone", "missing"] : List String)) →
      (c8State.documents.getD (CodeContext.Table.mk 0 [])).rows.filter
        (fun r => ¬ (["gone", "missing"] : List String).contains r.id) =
        (c8State.documents.getD (CodeContext.Table.mk 0 [])).rows) ∧
    (∀ f, c8State.fts = some f →
      (∀ r ∈ f, r.id ∉ (["gone", "missing"] : List String)) →
      f.filter (fun r => ¬ (["gone", "missing"] : List String).contains r.id) = f) :=
  C8_delete_spec ["gone", "missing"] c8State
    (c8State.documents.getD (CodeContext.Table.mk 0 [])) rfl

/-- C10: a document written through `insert` (also via `insertHybrid`)
has its numeric `startLine`/`endLine` persisted as decimal strings, and
`search` and `query` return those fields exactly as stored: the string
`String(n)` (the decimal form `toString n` of the number), not the number
`n` itself. -/
theorem C10_lines_stored_as_strings (d : VectorDocument)
    (dist : List ℚ → List ℚ → ℚ) (q : List ℚ) :
    ∃ st1 st2,
      SqliteVec.insert [d]
        (SqliteVec.createCollection d.vector.length SqliteVec.emptyState) =
        Except.ok st1 ∧
      SqliteVec.search dist q 10 none st1 = Except.ok
        [CodeContext.SearchResult.mk (c10RetDoc d q) (dist d.vector q)] ∧
      SqliteVec.insertHybrid [d]
        (SqliteVec.createHybridCollection d.vector.length SqliteVec.emptyState) =
        Except.ok st2 ∧
      SqliteVec.search dist q 10 none st2 = Except.ok
        [CodeContext.SearchResult.mk (c10RetDoc d q) (dist d.vector q)] ∧
      SqliteVec.query none 0 st1 = Except.ok [SqliteVec.rowOf d] ∧
      SqliteVec.query none 0 st2 = Except.ok [SqliteVec.rowOf d] ∧
      (SqliteVec.rowOf d).startLine = toString d.startLine ∧
      (SqliteVec.rowOf d).endLine = toString d.endLine ∧
      JsVal.str (toString d.startLine) ≠ JsVal.num d.startLine := by
  refine ⟨CodeContext.DbState.mk
      (some (CodeContext.Table.mk d.vector.length [SqliteVec.rowOf d])) none,
    CodeContext.DbState.mk
      (some (CodeContext.Table.mk d.vector.length [SqliteVec.rowOf d]))
      (some [SqliteVec.ftsRowOf d]), ?_, ?_, ?_, ?_, ?_, ?_, ?_, ?_, ?_⟩
  · simp [SqliteVec.insert, SqliteVec.createCollection, SqliteVec.emptyState,
      SqliteVec.upsertRow]
  · simp [SqliteVec.search, SqliteVec.searchRows, SqliteVec.applyFilter,
      SqliteVec.orDefault, SqliteVec.searchDocOf, SqliteVec.rowOf, c10RetDoc,
      List.insertionSort, List.orderedInsert]
  · simp [SqliteVec.insertHybrid, SqliteVec.insert, SqliteVec.createHybridCollection,
      SqliteVec.upsertRow]
  · simp [SqliteVec.search, SqliteVec.searchRows, SqliteVec.applyFilter,
      SqliteVec.orDefault, SqliteVec.searchDocOf, SqliteVec.rowOf, c10RetDoc,
      List.insertionSort, List.orderedInsert]
  · simp [SqliteVec.query, SqliteVec.applyFilter]
  · simp [SqliteVec.query, SqliteVec.applyFilter]
  · rfl
  · rfl
  · simp

/-- C7: the codebase identifier is the first 8 characters of the lowercase
hex MD5 digest of the resolved path: it has length 8, all its characters
are lowercase hex digits, it is deterministic, and two paths with
different resolved forms receive different identifiers unless their
truncated MD5 digests collide. -/
theorem C7_getPathHash_spec (resolve : String → String) (p q : String)
    (_hpq : resolve p ≠ resolve q) :
    (VectorPaths.getPathHash resolve p).length = 8 ∧
    (∀ c ∈ (VectorPaths.getPathHash resolve p).data, c ∈ Md5.hexDigits) ∧
    VectorPaths.getPathHash resolve p = VectorPaths.getPathHash resolve p ∧
    (VectorPaths.getPathHash resolve p ≠ VectorPaths.getPathHash resolve q ∨
      (Md5.md5HexChars (Md5.utf8Bytes (resolve p))).take 8 =
        (Md5.md5HexChars (Md5.utf8Bytes (resolve q))).take 8) := by
  refine ⟨?_, ?_, rfl, ?_⟩
  · show (String.mk ((Md5.md5HexChars (Md5.utf8Bytes (resolve p))).take 8)).length = 8
    simp [String.length, Md5.md5HexChars, Md5.length_bytesToHexChars,
      Md5.length_md5Bytes]
  · intro c hc
    have hc2 : c ∈ (Md5.md5HexChars (Md5.utf8Bytes (resolve p))).take 8 := hc
    exact Md5.bytesToHexChars_mem _ c (List.mem_of_mem_take hc2)
  · rcases eq_or_ne ((Md5.md5HexChars (Md5.utf8Bytes (resolve p))).take 8)
      ((Md5.md5HexChars (Md5.utf8Bytes (resolve q))).take 8) with he | hne
    · exact Or.inr he
    · exact Or.inl (fun hcontra => hne (congrArg String.data hcontra))

/-- Witness for C7 at two concrete distinct paths (with `path.resolve`
taken as the identity, both already being absolute). -/
theorem C7_getPathHash_spec_witness :
    (VectorPaths.getPathHash (fun s => s) "/tmp/proj").length = 8 ∧
    (∀ c ∈ (VectorPaths.getPathHash (fun s => s) "/tmp/proj").data,
      c ∈ Md5.hexDigits) ∧
    VectorPaths.getPathHash (fun s => s) "/tmp/proj" =
      VectorPaths.getPathHash (fun s => s) "/tmp/proj" ∧
    (VectorPaths.getPathHash (fun s => s) "/tmp/proj" ≠
        VectorPaths.getPathHash (fun s => s) "/home/u/proj" ∨
      (Md5.md5HexChars (Md5.utf8Bytes ((fun s => s) "/tmp/proj"))).take 8 =
        (Md5.md5HexChars (Md5.utf8Bytes ((fun s => s) "/home/u/proj"))).take 8) :=
  C7_getPathHash_spec (fun s => s) "/tmp/proj" "/home/u/proj" (by decide)

/-- Fixture pinning `getPathHash` against the digest Node's
`crypto.createHash('md5')` produces for the same input
(`md5("/tmp/proj") = d5ebc5292b75...`, truncated to 8). -/
theorem getPathHash_fixture :
    VectorPaths.getPathHash (fun s => s) "/tmp/proj" = "d5ebc529" := by decide

/-- C1: with the dense table present, `search` returns at most `topK`
rows, each drawn from the filtered candidate rows, ordered by ascending
distance to the query vector; the filter is applied before the top-K
cutoff: the result is a maximal-length cut (`min topK (#filtered)`) of
the filtered rows, and every filtered row left out is at least as far
from the query as every returned row.  `dist` stands for sqlite-vec's
`vec_distance_cosine`. -/
theorem C1_search_topk_sorted_filtered
    (dist : List ℚ → List ℚ → ℚ) (q : List ℚ) (topK : Nat)
    (filter : Option (Row → Bool)) (s : DbState) (tbl : Table)
    (hs : s.documents = some tbl) (htopK : 0 < topK) :
    ∃ front back : List Row,
      SqliteVec.search dist q topK filter s = Except.ok (front.map
        (fun r => CodeContext.SearchResult.mk (SqliteVec.searchDocOf q r)
          (dist r.vector q))) ∧
      front.length ≤ topK ∧
      front.length = min topK (SqliteVec.applyFilter filter tbl.rows).length ∧
      (front ++ back).Perm (SqliteVec.applyFilter filter tbl.rows) ∧
      (front.map (fun r => dist r.vector q)).Sorted (· ≤ ·) ∧
      (∀ r ∈ front, r ∈ SqliteVec.applyFilter filter tbl.rows) ∧
      (∀ t ∈ back, ∀ r ∈ front, dist r.vector q ≤ dist t.vector q) := by
  have hdef : SqliteVec.orDefault topK 10 = topK := by
    simp [SqliteVec.orDefault, Nat.pos_iff_ne_zero.mp htopK]
  haveI htot : IsTotal Row (fun a b : Row => dist a.vector q ≤ dist b.vector q) :=
    ⟨fun a b => le_total _ _⟩
  haveI htr : IsTrans Row (fun a b : Row => dist a.vector q ≤ dist b.vector q) :=
    ⟨fun _ _ _ h1 h2 => le_trans h1 h2⟩
  have hsorted : ((SqliteVec.applyFilter filter tbl.rows).insertionSort
      (fun a b : Row => dist a.vector q ≤ dist b.vector q)).Sorted
      (fun a b : Row => dist a.vector q ≤ dist b.vector q) :=
    List.sorted_insertionSort _ _
  refine ⟨((SqliteVec.applyFilter filter tbl.rows).insertionSort
      (fun a b : Row => dist a.vector q ≤ dist b.vector q)).take topK,
    ((SqliteVec.applyFilter filter tbl.rows).insertionSort
      (fun a b : Row => dist a.vector q ≤ dist b.vector q)).drop topK,
    ?_, ?_, ?_, ?_, ?_, ?_, ?_⟩
  · unfold SqliteVec.search
    rw [hs]
    simp only [SqliteVec.searchRows, hdef]
  · exact List.length_take_le _ _
  · rw [List.length_take, List.length_insertionSort]
  · rw [List.take_append_drop]
    exact List.perm_insertionSort _ _
  · exact List.pairwise_map.mpr (List.Pairwise.sublist (List.take_sublist _ _) hsorted)
  · intro r hr
    exact (List.perm_insertionSort _ _).mem_iff.mp (List.mem_of_mem_take hr)
  · intro t ht r hr
    exact hsorted.rel_of_mem_take_of_mem_drop hr ht

/-- Witness for C1 at a concrete table, filter and topK. -/
theorem C1_search_topk_sorted_filtered_witness :
    ∃ front back : List Row,
      SqliteVec.search SqliteVec.sqDist [0] 2
        (some (fun r => r.fileExtension == "ts")) c1State = Except.ok (front.map
        (fun r => CodeContext.SearchResult.mk (SqliteVec.searchDocOf [0] r)
          (SqliteVec.sqDist r.vector [0]))) ∧
      front.length ≤ 2 ∧
      front.length = min 2 (SqliteVec.applyFilter
        (some (fun r => r.fileExtension == "ts")) c1Table.rows).length ∧
      (front ++ back).Perm (SqliteVec.applyFilter
        (some (fun r => r.fileExtension == "ts")) c1Table.rows) ∧
      (front.map (fun r => SqliteVec.sqDist r.vector [0])).Sorted (· ≤ ·) ∧
      (∀ r ∈ front, r ∈ SqliteVec.applyFilter
        (some (fun r => r.fileExtension == "ts")) c1Table.rows) ∧
      (∀ t ∈ back, ∀ r ∈ front,
        SqliteVec.sqDist r.vector [0] ≤ SqliteVec.sqDist t.vector [0]) :=
  C1_search_topk_sorted_filtered SqliteVec.sqDist [0] 2
    (some (fun r => r.fileExtension == "ts")) c1State c1Table rfl (by decide)

/-- C5 (amended): when the text query is empty or the FTS5 side is
unavailable, `hybridSearch` returns the same documents in the same order
as the dense-only search for the query vector truncated to the limit —
provided the limit is at most 50, since the dense leg of `hybridSearch`
retrieves only the top 50 rows.  (Returned documents differ only in the
echoed `vector` field, which `hybridSearch` leaves empty.) -/
theorem C5_hybrid_reduces_to_dense (dist : List ℚ → List ℚ → ℚ)
    (ftsQuery : List FtsRow → String → List String)
    (qVec : List ℚ) (qText : String) (limit : Nat)
    (filter : Option (Row → Bool)) (s : DbState) (tbl : Table)
    (hs : s.documents = some tbl)
    (hnd : (tbl.rows.map Row.id).Nodup)
    (hdeg : qText = "" ∨ s.fts = none)
    (hlimit : 0 < limit) (hlim50 : limit ≤ 50) :
    ∃ dres hres,
      SqliteVec.search dist qVec limit filter s = Except.ok dres ∧
      SqliteVec.hybridSearch dist ftsQuery qVec qText limit filter s =
        Except.ok hres ∧
      hres.map (fun h => h.document) =
        dres.map (fun r => SqliteVec.stripVec r.document) ∧
      hres.map (fun h => h.document.id) = dres.map (fun r => r.document.id) := by
  have hdef : SqliteVec.orDefault limit 10 = limit := by
    simp [SqliteVec.orDefault, Nat.pos_iff_ne_zero.mp hlimit]
  have hdnd : (((SqliteVec.searchRows dist qVec 50 filter tbl).map Row.id)).Nodup :=
    SqliteVec.searchRows_ids_nodup dist qVec 50 filter tbl hnd
  have htext : SqliteVec.hybridTextIds ftsQuery qText s = [] := by
    rcases hdeg with h | h
    · simp [SqliteVec.hybridTextIds, h]
    · unfold SqliteVec.hybridTextIds
      rw [h]
      by_cases hq : qText = "" <;> simp [hq]
  have hscores : SqliteVec.hybridScores dist ftsQuery qVec qText filter s tbl =
      SqliteVec.withRanks ((SqliteVec.searchRows dist qVec 50 filter tbl).map Row.id)
        0 := by
    unfold SqliteVec.hybridScores
    rw [htext]
    show SqliteVec.addRanked
      (SqliteVec.addRanked [] ((SqliteVec.searchRows dist qVec 50 filter tbl).map
        Row.id) 0) [] 0 = _
    rw [show ∀ m : List (String × ℚ), SqliteVec.addRanked m [] 0 = m from
      fun m => rfl]
    rw [SqliteVec.addRanked_of_disjoint _ [] 0 hdnd (by simp)]
    simp
  haveI : IsTotal (String × ℚ) (fun a b => b.2 ≤ a.2) := ⟨fun a b => le_total b.2 a.2⟩
  haveI : IsTrans (String × ℚ) (fun a b => b.2 ≤ a.2) :=
    ⟨fun _ _ _ h1 h2 => le_trans h2 h1⟩
  have heq : (SqliteVec.withRanks ((SqliteVec.searchRows dist qVec 50 filter
      tbl).map Row.id) 0).insertionSort (fun a b => b.2 ≤ a.2) =
      SqliteVec.withRanks ((SqliteVec.searchRows dist qVec 50 filter tbl).map
        Row.id) 0 :=
    List.Sorted.insertionSort_eq (SqliteVec.withRanks_sorted _ 0)
  have htake : SqliteVec.searchRows dist qVec limit filter tbl =
      (SqliteVec.searchRows dist qVec 50 filter tbl).take limit := by
    unfold SqliteVec.searchRows
    rw [List.take_take, min_eq_left hlim50]
  have hsortedIds : SqliteVec.hybridSortedIds dist ftsQuery qVec qText limit filter
      s tbl = (SqliteVec.searchRows dist qVec limit filter tbl).map Row.id := by
    unfold SqliteVec.hybridSortedIds
    rw [hscores, heq, hdef, List.map_take, SqliteVec.keys_withRanks,
      ← List.map_take, ← htake]
  have hfetch := SqliteVec.fetchDocs_of_rows tbl.rows
    (SqliteVec.hybridScores dist ftsQuery qVec qText filter s tbl) hnd
    (SqliteVec.searchRows dist qVec limit filter tbl)
    (SqliteVec.searchRows_mem dist qVec limit filter tbl)
  refine ⟨(SqliteVec.searchRows dist qVec limit filter tbl).map
      (fun r => CodeContext.SearchResult.mk (SqliteVec.searchDocOf qVec r)
        (dist r.vector qVec)),
    (SqliteVec.searchRows dist qVec limit filter tbl).map
      (fun r => CodeContext.SearchResult.mk (SqliteVec.hybridDocOf r)
        ((SqliteVec.alookup (SqliteVec.hybridScores dist ftsQuery qVec qText filter
          s tbl) r.id).getD 0)), ?_, ?_, ?_, ?_⟩
  · unfold SqliteVec.search
    rw [hs]
    simp only [hdef]
  · unfold SqliteVec.hybridSearch
    rw [hs]
    by_cases hemp : (SqliteVec.hybridSortedIds dist ftsQuery qVec qText limit filter
        s tbl).isEmpty
    · have hnil := List.isEmpty_iff.mp hemp
      rw [hsortedIds] at hnil
      have hrows : SqliteVec.searchRows dist qVec limit filter tbl = [] :=
        List.map_eq_nil_iff.mp hnil
      simp only [hemp, if_true, hrows, List.map_nil]
    · rw [Bool.not_eq_true] at hemp
      simp only [hemp, if_false]
      rw [hsortedIds, hfetch]
      simp
  · rw [List.map_map, List.map_map]
    rfl
  · rw [List.map_map, List.map_map]
    rfl

/-- Witness for C5 (amended) at a dense-only collection (no FTS table). -/
theorem C5_hybrid_reduces_to_dense_witness :
    ∃ dres hres,
      SqliteVec.search SqliteVec.sqDist [0] 2 none c1State = Except.ok dres ∧
      SqliteVec.hybridSearch SqliteVec.sqDist (fun _ _ => []) [0] "needle" 2 none
        c1State = Except.ok hres ∧
      hres.map (fun h => h.document) =
        dres.map (fun r => SqliteVec.stripVec r.document) ∧
      hres.map (fun h => h.document.id) = dres.map (fun r => r.document.id) :=
  C5_hybrid_reduces_to_dense SqliteVec.sqDist (fun _ _ => []) [0] "needle" 2 none
    c1State c1Table rfl (by decide) (Or.inr rfl) (by decide) (by decide)

/-- Counterexample to C5 as stated: with an empty text query and limit 51,
`hybridSearch` returns only 50 documents (its dense leg retrieves the top
50) while the dense-only search returns all 51, so the two result lists
differ. -/
theorem C5_counterexample :
    resultCount (SqliteVec.hybridSearch SqliteVec.sqDist (fun _ _ => []) [0] "" 51
      none bigState) = some 50 ∧
    resultCount (SqliteVec.search SqliteVec.sqDist [0] 51 none bigState) =
      some 51 := by
  have hnd : (bigTable.rows.map Row.id).Nodup := by decide
  have hlen51 : (SqliteVec.applyFilter none bigTable.rows).length = 51 := by
    show bigRows.length = 51
    unfold bigRows
    rw [List.length_map, List.length_range]
  constructor
  · obtain ⟨res, hok, hpairs⟩ := SqliteVec.hybrid_run SqliteVec.sqDist
      (fun _ _ => []) [0] "" 51 none bigState bigTable rfl hnd (by decide)
      (by decide) (by decide)
    have hdnd := SqliteVec.searchRows_ids_nodup SqliteVec.sqDist [0] 50 none
      bigTable hnd
    have hscoreslen : (SqliteVec.hybridScores SqliteVec.sqDist (fun _ _ => []) [0]
        "" none bigState bigTable).length = 50 := by
      unfold SqliteVec.hybridScores
      rw [show SqliteVec.hybridTextIds (fun _ _ => ([] : List String)) "" bigState
          = [] from rfl]
      rw [show ∀ m : List (String × ℚ), SqliteVec.addRanked m [] 0 = m from
        fun m => rfl]
      rw [SqliteVec.addRanked_of_disjoint _ [] 0 hdnd (by simp)]
      simp [SqliteVec.length_withRanks, SqliteVec.length_searchRows, hlen51]
    have hreslen : res.length = 50 := by
      have h1 := congrArg List.length hpairs
      rw [List.length_map, List.length_take, List.length_insertionSort,
        hscoreslen] at h1
      simpa using h1
    rw [hok]
    simp [resultCount, hreslen]
  · have hok : SqliteVec.search SqliteVec.sqDist [0] 51 none bigState =
        Except.ok ((SqliteVec.searchRows SqliteVec.sqDist [0]
          (SqliteVec.orDefault 51 10) none bigTable).map
          (fun r => CodeContext.SearchResult.mk (SqliteVec.searchDocOf [0] r)
            (SqliteVec.sqDist r.vector [0]))) := rfl
    rw [hok]
    simp only [resultCount]
    rw [List.length_map, SqliteVec.length_searchRows, hlen51]
    rfl

/-- C3: with a non-empty text query against a hybrid collection,
`hybridSearch` retrieves the top-50 dense ids and the top-50 lexical ids,
fuses them by summing `1/(60 + rank)` (1-based rank) over the lists
containing each candidate id, and returns candidates with maximal fused
scores, at most the requested count: every returned hit carries exactly
the claimed fused score, and no candidate left out scores strictly higher
than any returned hit. -/
theorem C3_hybrid_rrf_spec (dist : List ℚ → List ℚ → ℚ)
    (ftsQuery : List FtsRow → String → List String)
    (qVec : List ℚ) (qText : String) (limit : Nat)
    (filter : Option (Row → Bool)) (s : DbState) (tbl : Table) (f : List FtsRow)
    (hs : s.documents = some tbl) (hf : s.fts = some f) (hq : qText ≠ "")
    (hnd : (tbl.rows.map Row.id).Nodup)
    (htnd : (SqliteVec.hybridTextIds ftsQuery qText s).Nodup)
    (hsub : ∀ id ∈ SqliteVec.hybridTextIds ftsQuery qText s,
      ∃ r ∈ tbl.rows, r.id = id)
    (hlimit : 0 < limit) :
    SqliteVec.hybridTextIds ftsQuery qText s = (ftsQuery f qText).take 50 ∧
    ∃ res, SqliteVec.hybridSearch dist ftsQuery qVec qText limit filter s =
        Except.ok res ∧
      res.length ≤ limit ∧
      (∀ h ∈ res,
        (h.document.id ∈ (SqliteVec.searchRows dist qVec 50 filter tbl).map Row.id ∨
          h.document.id ∈ SqliteVec.hybridTextIds ftsQuery qText s) ∧
        h.score = SqliteVec.rrfScore
          ((SqliteVec.searchRows dist qVec 50 filter tbl).map Row.id)
          (SqliteVec.hybridTextIds ftsQuery qText s) h.document.id) ∧
      (∀ id, (id ∈ (SqliteVec.searchRows dist qVec 50 filter tbl).map Row.id ∨
          id ∈ SqliteVec.hybridTextIds ftsQuery qText s) →
        id ∉ res.map (fun h => h.document.id) →
        ∀ h ∈ res, SqliteVec.rrfScore
          ((SqliteVec.searchRows dist qVec 50 filter tbl).map Row.id)
          (SqliteVec.hybridTextIds ftsQuery qText s) id ≤ h.score) := by
  refine ⟨by unfold SqliteVec.hybridTextIds; rw [hf]; simp [hq], ?_⟩
  obtain ⟨res, hok, hpairs⟩ := SqliteVec.hybrid_run dist ftsQuery qVec qText limit
    filter s tbl hs hnd hlimit htnd hsub
  have hkeysnd := SqliteVec.hybridScores_keys_nodup dist ftsQuery qVec qText filter
    s tbl hnd htnd
  have hperm : ((SqliteVec.hybridScores dist ftsQuery qVec qText filter s
      tbl).insertionSort (fun a b => b.2 ≤ a.2)).Perm
      (SqliteVec.hybridScores dist ftsQuery qVec qText filter s tbl) :=
    List.perm_insertionSort _ _
  haveI : IsTotal (String × ℚ) (fun a b => b.2 ≤ a.2) := ⟨fun a b => le_total b.2 a.2⟩
  haveI : IsTrans (String × ℚ) (fun a b => b.2 ≤ a.2) :=
    ⟨fun _ _ _ h1 h2 => le_trans h2 h1⟩
  have hsorted : ((SqliteVec.hybridScores dist ftsQuery qVec qText filter s
      tbl).insertionSort (fun a b => b.2 ≤ a.2)).Sorted (fun a b => b.2 ≤ a.2) :=
    List.sorted_insertionSort _ _
  have hids : res.map (fun h => h.document.id) =
      (((SqliteVec.hybridScores dist ftsQuery qVec qText filter s
        tbl).insertionSort (fun a b => b.2 ≤ a.2)).take limit).map Prod.fst := by
    rw [← hpairs, List.map_map]
    rfl
  refine ⟨res, hok, ?_, ?_, ?_⟩
  · have h1 := congrArg List.length hpairs
    rw [List.length_map] at h1
    rw [h1]
    exact List.length_take_le _ _
  · intro h hh
    have hmemtake : (h.document.id, h.score) ∈
        ((SqliteVec.hybridScores dist ftsQuery qVec qText filter s
          tbl).insertionSort (fun a b => b.2 ≤ a.2)).take limit := by
      rw [← hpairs]
      exact List.mem_map_of_mem _ hh
    have hmem : (h.document.id, h.score) ∈
        SqliteVec.hybridScores dist ftsQuery qVec qText filter s tbl :=
      hperm.mem_iff.mp (List.mem_of_mem_take hmemtake)
    have hl := SqliteVec.alookup_of_mem_nodup _ _ hkeysnd hmem
    rw [SqliteVec.alookup_hybridScores dist ftsQuery qVec qText filter s tbl hnd
      htnd] at hl
    by_cases hmem2 : h.document.id ∈
        (SqliteVec.searchRows dist qVec 50 filter tbl).map Row.id ∨
        h.document.id ∈ SqliteVec.hybridTextIds ftsQuery qText s
    · rw [if_pos hmem2] at hl
      exact ⟨hmem2, (Option.some.injEq _ _).mp hl.symm⟩
    · rw [if_neg hmem2] at hl
      cases hl
  · intro id hid hnotin h hh
    have halo : SqliteVec.alookup
        (SqliteVec.hybridScores dist ftsQuery qVec qText filter s tbl) id =
        some (SqliteVec.rrfScore
          ((SqliteVec.searchRows dist qVec 50 filter tbl).map Row.id)
          (SqliteVec.hybridTextIds ftsQuery qText s) id) := by
      rw [SqliteVec.alookup_hybridScores dist ftsQuery qVec qText filter s tbl hnd
        htnd, if_pos hid]
    have hmem := SqliteVec.alookup_mem _ _ _ halo
    have hmem2 : (id, SqliteVec.rrfScore
        ((SqliteVec.searchRows dist qVec 50 filter tbl).map Row.id)
        (SqliteVec.hybridTextIds ftsQuery qText s) id) ∈
        (SqliteVec.hybridScores dist ftsQuery qVec qText filter s
          tbl).insertionSort (fun a b => b.2 ≤ a.2) :=
      hperm.mem_iff.mpr hmem
    have hcases : (id, SqliteVec.rrfScore
        ((SqliteVec.searchRows dist qVec 50 filter tbl).map Row.id)
        (SqliteVec.hybridTextIds ftsQuery qText s) id) ∈
        ((SqliteVec.hybridScores dist ftsQuery qVec qText filter s
          tbl).insertionSort (fun a b => b.2 ≤ a.2)).take limit ∨
        (id, SqliteVec.rrfScore
          ((SqliteVec.searchRows dist qVec 50 filter tbl).map Row.id)
          (SqliteVec.hybridTextIds ftsQuery qText s) id) ∈
        ((SqliteVec.hybridScores dist ftsQuery qVec qText filter s
          tbl).insertionSort (fun a b => b.2 ≤ a.2)).drop limit := by
      rw [← List.mem_append, List.take_append_drop]
      exact hmem2
    rcases hcases with hin | hin
    · exfalso
      apply hnotin
      rw [hids]
      exact List.mem_map_of_mem _ hin
    · have hhtake : (h.document.id, h.score) ∈
          ((SqliteVec.hybridScores dist ftsQuery qVec qText filter s
            tbl).insertionSort (fun a b => b.2 ≤ a.2)).take limit := by
        rw [← hpairs]
        exact List.mem_map_of_mem _ hh
      exact hsorted.rel_of_mem_take_of_mem_drop hhtake hin

/-- C4 (amended): `hybridSearch` sorts candidates by descending fused
score and breaks equal-score ties by the insertion order of the RRF
accumulation map — dense candidates in ascending-distance rank order
first, then lexical-only candidates in lexical rank order; neither cosine
distance nor id lexicographic order is consulted.  Formally: returned
scores are descending, the map's key order is dense ids followed by
new lexical ids, and for every score value the returned ids carrying that
score are a prefix of the map's ids carrying it. -/
theorem C4_tiebreak_amended (dist : List ℚ → List ℚ → ℚ)
    (ftsQuery : List FtsRow → String → List String)
    (qVec : List ℚ) (qText : String) (limit : Nat)
    (filter : Option (Row → Bool)) (s : DbState) (tbl : Table)
    (hs : s.documents = some tbl)
    (hnd : (tbl.rows.map Row.id).Nodup)
    (htnd : (SqliteVec.hybridTextIds ftsQuery qText s).Nodup)
    (hsub : ∀ id ∈ SqliteVec.hybridTextIds ftsQuery qText s,
      ∃ r ∈ tbl.rows, r.id = id)
    (hlimit : 0 < limit) :
    ∃ res, SqliteVec.hybridSearch dist ftsQuery qVec qText limit filter s =
        Except.ok res ∧
      (res.map CodeContext.SearchResult.score).Sorted (fun a b => b ≤ a) ∧
      (SqliteVec.hybridScores dist ftsQuery qVec qText filter s tbl).map Prod.fst =
        (SqliteVec.searchRows dist qVec 50 filter tbl).map Row.id ++
          (SqliteVec.hybridTextIds ftsQuery qText s).filter
            (fun id => decide
              (id ∉ (SqliteVec.searchRows dist qVec 50 filter tbl).map Row.id)) ∧
      (∀ v : ℚ, ∃ t,
        ((res.filter (fun h => decide (h.score = v))).map
          (fun h => h.document.id)) ++ t =
        ((SqliteVec.hybridScores dist ftsQuery qVec qText filter s tbl).filter
          (fun e => decide (e.2 = v))).map Prod.fst) := by
  obtain ⟨res, hok, hpairs⟩ := SqliteVec.hybrid_run dist ftsQuery qVec qText limit
    filter s tbl hs hnd hlimit htnd hsub
  haveI : IsTotal (String × ℚ) (fun a b => b.2 ≤ a.2) := ⟨fun a b => le_total b.2 a.2⟩
  haveI : IsTrans (String × ℚ) (fun a b => b.2 ≤ a.2) :=
    ⟨fun _ _ _ h1 h2 => le_trans h2 h1⟩
  have hsorted : ((SqliteVec.hybridScores dist ftsQuery qVec qText filter s
      tbl).insertionSort (fun a b => b.2 ≤ a.2)).Sorted (fun a b => b.2 ≤ a.2) :=
    List.sorted_insertionSort _ _
  refine ⟨res, hok, ?_,
    SqliteVec.hybridScores_keys dist ftsQuery qVec qText filter s tbl hnd htnd, ?_⟩
  · have hscores : res.map CodeContext.SearchResult.score =
        (((SqliteVec.hybridScores dist ftsQuery qVec qText filter s
          tbl).insertionSort (fun a b => b.2 ≤ a.2)).take limit).map Prod.snd := by
      rw [← hpairs, List.map_map]
      rfl
    rw [hscores]
    exact List.pairwise_map.mpr
      (List.Pairwise.sublist (List.take_sublist _ _) hsorted)
  · intro v
    refine ⟨((((SqliteVec.hybridScores dist ftsQuery qVec qText filter s
      tbl).insertionSort (fun a b => b.2 ≤ a.2)).drop limit).filter
        (fun e => decide (e.2 = v))).map Prod.fst, ?_⟩
    have hfp : (res.filter (fun h => decide (h.score = v))).map
        (fun h => h.document.id) =
        ((((SqliteVec.hybridScores dist ftsQuery qVec qText filter s
          tbl).insertionSort (fun a b => b.2 ≤ a.2)).take limit).filter
            (fun e => decide (e.2 = v))).map Prod.fst := by
      rw [← hpairs, List.filter_map, List.map_map]
      rfl
    rw [hfp, ← List.map_append, ← List.filter_append, List.take_append_drop,
      SqliteVec.filter_insertionSort_desc]

/-- Witness for C3 at the concrete hybrid collection. -/
theorem C3_hybrid_rrf_spec_witness :
    SqliteVec.hybridTextIds contentFts "needle" hybState =
      (contentFts [ftsRowA] "needle").take 50 ∧
    ∃ res, SqliteVec.hybridSearch SqliteVec.headDist contentFts [0] "needle" 2
        (some (fun r => r.relativePath == "x.ts")) hybState = Except.ok res ∧
      res.length ≤ 2 ∧
      (∀ h ∈ res,
        (h.document.id ∈ (SqliteVec.searchRows SqliteVec.headDist [0] 50
          (some (fun r => r.relativePath == "x.ts")) hybTable).map
            CodeContext.Row.id ∨
          h.document.id ∈ SqliteVec.hybridTextIds contentFts "needle" hybState) ∧
        h.score = SqliteVec.rrfScore
          ((SqliteVec.searchRows SqliteVec.headDist [0] 50
            (some (fun r => r.relativePath == "x.ts")) hybTable).map
              CodeContext.Row.id)
          (SqliteVec.hybridTextIds contentFts "needle" hybState) h.document.id) ∧
      (∀ id, (id ∈ (SqliteVec.searchRows SqliteVec.headDist [0] 50
          (some (fun r => r.relativePath == "x.ts")) hybTable).map
            CodeContext.Row.id ∨
          id ∈ SqliteVec.hybridTextIds contentFts "needle" hybState) →
        id ∉ res.map (fun h => h.document.id) →
        ∀ h ∈ res, SqliteVec.rrfScore
          ((SqliteVec.searchRows SqliteVec.headDist [0] 50
            (some (fun r => r.relativePath == "x.ts")) hybTable).map
              CodeContext.Row.id)
          (SqliteVec.hybridTextIds contentFts "needle" hybState) id ≤ h.score) :=
  C3_hybrid_rrf_spec SqliteVec.headDist contentFts [0] "needle" 2
    (some (fun r => r.relativePath == "x.ts")) hybState hybTable [ftsRowA]
    rfl rfl (by decide) (by decide) (by decide) (by decide) (by decide)

/-- Witness for C4 (amended) at the concrete hybrid collection. -/
theorem C4_tiebreak_amended_witness :
    ∃ res, SqliteVec.hybridSearch SqliteVec.headDist contentFts [0] "needle" 2
        (some (fun r => r.fileExtension == "ts")) hybState = Except.ok res ∧
      (res.map CodeContext.SearchResult.score).Sorted (fun a b => b ≤ a) ∧
      (SqliteVec.hybridScores SqliteVec.headDist contentFts [0] "needle"
        (some (fun r => r.fileExtension == "ts")) hybState hybTable).map
          Prod.fst =
        (SqliteVec.searchRows SqliteVec.headDist [0] 50
          (some (fun r => r.fileExtension == "ts")) hybTable).map
            CodeContext.Row.id ++
          (SqliteVec.hybridTextIds contentFts "needle" hybState).filter
            (fun id => decide
              (id ∉ (SqliteVec.searchRows SqliteVec.headDist [0] 50
                (some (fun r => r.fileExtension == "ts")) hybTable).map
                  CodeContext.Row.id)) ∧
      (∀ v : ℚ, ∃ t,
        ((res.filter (fun h => decide (h.score = v))).map
          (fun h => h.document.id)) ++ t =
        ((SqliteVec.hybridScores SqliteVec.headDist contentFts [0] "needle"
          (some (fun r => r.fileExtension == "ts")) hybState hybTable).filter
          (fun e => decide (e.2 = v))).map Prod.fst) :=
  C4_tiebreak_amended SqliteVec.headDist contentFts [0] "needle" 2
    (some (fun r => r.fileExtension == "ts")) hybState hybTable
    rfl (by decide) (by decide) (by decide) (by decide)

/-- Counterexample to C4 as stated: both candidates tie on fused score,
the candidate with id "a" is closer to the query and lexicographically
smaller, yet `hybridSearch` returns "b" first, because ties keep the
accumulation map's insertion order (dense ids before lexical-only ids). -/
theorem C4_counterexample :
    ∃ hb ha, SqliteVec.hybridSearch SqliteVec.headDist contentFts [0] "needle" 2
        (some (fun r => r.relativePath == "x.ts")) hybState =
        Except.ok [hb, ha] ∧
      hb.document.id = "b" ∧ ha.document.id = "a" ∧ hb.score = ha.score ∧
      SqliteVec.headDist rowA.vector [0] < SqliteVec.headDist rowB.vector [0] ∧
      ha.document.id < hb.document.id := by
  have hscores : SqliteVec.hybridScores SqliteVec.headDist contentFts [0] "needle"
      (some (fun r => r.relativePath == "x.ts")) hybState hybTable =
      [("b", tieScore), ("a", tieScore)] := rfl
  haveI : IsTotal (String × ℚ) (fun a b => b.2 ≤ a.2) := ⟨fun a b => le_total b.2 a.2⟩
  haveI : IsTrans (String × ℚ) (fun a b => b.2 ≤ a.2) :=
    ⟨fun _ _ _ h1 h2 => le_trans h2 h1⟩
  have hsort : ([("b", tieScore), ("a", tieScore)] :
      List (String × ℚ)).insertionSort (fun a b => b.2 ≤ a.2) =
      [("b", tieScore), ("a", tieScore)] := by
    apply List.Sorted.insertionSort_eq
    refine List.sorted_cons.mpr ⟨?_, List.sorted_singleton _⟩
    intro e he
    have he2 : e = ("a", tieScore) := by simpa using he
    rw [he2]
  have hsids : SqliteVec.hybridSortedIds SqliteVec.headDist contentFts [0]
      "needle" 2 (some (fun r => r.relativePath == "x.ts")) hybState hybTable =
      ["b", "a"] := by
    unfold SqliteVec.hybridSortedIds
    rw [hscores, hsort]
    rfl
  have hok : SqliteVec.hybridSearch SqliteVec.headDist contentFts [0] "needle" 2
      (some (fun r => r.relativePath == "x.ts")) hybState =
      Except.ok [CodeContext.SearchResult.mk (SqliteVec.hybridDocOf rowB) tieScore,
        CodeContext.SearchResult.mk (SqliteVec.hybridDocOf rowA) tieScore] := by
    show (if (SqliteVec.hybridSortedIds SqliteVec.headDist contentFts [0] "needle"
        2 (some (fun r => r.relativePath == "x.ts")) hybState hybTable).isEmpty
      then Except.ok []
      else match SqliteVec.fetchDocs hybTable.rows
        (SqliteVec.hybridScores SqliteVec.headDist contentFts [0] "needle"
          (some (fun r => r.relativePath == "x.ts")) hybState hybTable)
        (SqliteVec.hybridSortedIds SqliteVec.headDist contentFts [0] "needle" 2
          (some (fun r => r.relativePath == "x.ts")) hybState hybTable) with
        | some res => Except.ok res
        | none => Except.error ("TypeError")) =
      Except.ok [CodeContext.SearchResult.mk (SqliteVec.hybridDocOf rowB) tieScore,
        CodeContext.SearchResult.mk (SqliteVec.hybridDocOf rowA) tieScore]
    rw [hsids]
    rfl
  refine ⟨CodeContext.SearchResult.mk (SqliteVec.hybridDocOf rowB) tieScore,
    CodeContext.SearchResult.mk (SqliteVec.hybridDocOf rowA) tieScore,
    hok, rfl, rfl, rfl, ?_, ?_⟩
  · show ((1 : ℚ)) < ((5 : ℚ))
    norm_num
  · show ("a" : String) < "b"
    rw [String.lt_iff_toList_lt]
    decide
